import Mathlib

/-!
Verification of the genesis-device procedural terrain core.

This file gives a shallow embedding, in exact real arithmetic, of the
numerical core of the repository: the continuous-then-split tile pipeline
(src/terrain/tiles/ContinuousTileGeneration.ts, src/terrain/tiles/TileStreaming.ts),
the D8 flow solver and hydrology mask builder (src/terrain/filters/WaterSystem.ts)
and the geological erosion pipeline (src/terrain/filters/GeologicalErosion.ts),
together with theorems settling the stated properties of that core.

Modelling conventions:
* JavaScript Float32Array grids are modelled as total functions from flat
  indices to real numbers; IEEE-754 rounding is idealised to exact real
  arithmetic throughout.
* In-place mutation is modelled by explicit state passing: a loop that
  writes into an array becomes a fold over the list of loop indices
  threading the grid, and a loop in which every cell is written exactly
  once from data that the loop itself never modifies becomes a pointwise
  definition over the cell index.
* Array.prototype.sort is stable (ECMA-262, 2019 onward) and is modelled
  by the stable List.mergeSort of the standard library.
-/

open scoped Classical

namespace Genesis

noncomputable section

/-- Flat float array (Float32Array) modelled as a total map from indices to reals. -/
abbrev Grid : Type := ℕ → ℝ

/-- The all-zero grid, the state of a freshly allocated Float32Array. -/
def zeroGrid : Grid := fun _ => 0

/-- Flat row-major index of the cell at row y, column x of a grid of width w. -/
def idx (w y x : ℕ) : ℕ := y * w + x

/-- Modelled from the spec: the HeightField class (src/terrain/HeightField.ts) is
absent from the provided sources, with only its importers present. Section 4.A of
the spec defines it as a square N by N float grid with operations create, get with
edge clamping, set, and bilinear resample. Only the container, clamped get and set
are needed here; the resample operation is part of the abstracted noise stage. -/
structure HeightField where
  size : ℕ
  data : Grid

/-- Clamp an integer coordinate into the valid range of a grid of side N
(spec 4.A: sampling at integer coordinates outside the range clamps to the edge). -/
def clampCoord (N : ℕ) (c : ℤ) : ℕ := min (c.toNat) (N - 1)

/-- Clamped read, spec 4.A. Negative coordinates clamp to 0 via Int.toNat. -/
def HeightField.get (h : HeightField) (x y : ℤ) : ℝ :=
  h.data (idx h.size (clampCoord h.size y) (clampCoord h.size x))

/-- Loop index pairs (y, x) for a double loop, outer y over rows, inner x over cols. -/
def gridPairs (rows cols : ℕ) : List (ℕ × ℕ) :=
  (List.range rows).flatMap fun y => (List.range cols).map fun x => (y, x)

/-- A sweep of single writes: for each pair p in order, write value f p at index enc p. -/
def writeCells (ps : List (ℕ × ℕ)) (enc : ℕ × ℕ → ℕ) (f : ℕ × ℕ → ℝ) (g : Grid) : Grid :=
  ps.foldl (fun a p => Function.update a (enc p) (f p)) g

/-- Tile grid configuration (src/terrain/tiles/TileStreaming.ts, TileGridConfig).
The remaining source fields (baseSize, steps, worldScale, seed, blendSeams) only
parameterise the noise synthesis stage, which is abstracted below, and the legacy
opt-in seam blending path, which no claim concerns. -/
structure TileGridConfig where
  rows : ℕ
  cols : ℕ
  tileSize : ℕ
  overlap : ℕ

/-- inner = N - 2*O, the side of the inner region of each tile. -/
def innerOf (cfg : TileGridConfig) : ℕ := cfg.tileSize - 2 * cfg.overlap

/-- Atlas width cols * inner (ContinuousTileGeneration.ts line 62). -/
def atlasW (cfg : TileGridConfig) : ℕ := cfg.cols * innerOf cfg

/-- Atlas height rows * inner (ContinuousTileGeneration.ts line 63). -/
def atlasH (cfg : TileGridConfig) : ℕ := cfg.rows * innerOf cfg

/-- Extraction of the tile at grid position (r, c) from the continuous field
(ContinuousTileGeneration.ts lines 41 to 57): a fresh HeightField of side N whose
cell (x, y) is copied from the continuous field at (c*inner + x, r*inner + y). -/
def extractTile (continuous : HeightField) (cfg : TileGridConfig) (r c : ℕ) : HeightField :=
  ⟨cfg.tileSize,
    writeCells (gridPairs cfg.tileSize cfg.tileSize)
      (fun p => idx cfg.tileSize p.1 p.2)
      (fun p => continuous.get (c * innerOf cfg + p.2 : ℕ) (r * innerOf cfg + p.1 : ℕ))
      zeroGrid⟩

/-- The row-major list of extracted tiles (ContinuousTileGeneration.ts lines 38 to 59). -/
def tileList (continuous : HeightField) (cfg : TileGridConfig) : List HeightField :=
  (gridPairs cfg.rows cfg.cols).map fun rc => extractTile continuous cfg rc.1 rc.2

/-- Write the inner region of one tile into the atlas at offset (c*inner, r*inner)
(ContinuousTileGeneration.ts lines 70 to 80, TileStreaming.ts lines 191 to 201). -/
def writeInner (cfg : TileGridConfig) (tile : HeightField) (r c : ℕ) (g : Grid) : Grid :=
  writeCells (gridPairs (innerOf cfg) (innerOf cfg))
    (fun p => idx (atlasW cfg) (r * innerOf cfg + p.1) (c * innerOf cfg + p.2))
    (fun p => tile.get (p.2 + cfg.overlap : ℕ) (p.1 + cfg.overlap : ℕ))
    g

/-- Fold writing the inner regions of the tiles at the given grid positions. -/
def atlasFold (continuous : HeightField) (cfg : TileGridConfig)
    (L : List (ℕ × ℕ)) (g : Grid) : Grid :=
  L.foldl (fun g rc => writeInner cfg (extractTile continuous cfg rc.1 rc.2) rc.1 rc.2 g) g

/-- The packed atlas: inner regions of all tiles written in row-major tile order
into a fresh float grid (ContinuousTileGeneration.ts lines 64 to 82). -/
def atlasOf (continuous : HeightField) (cfg : TileGridConfig) : Grid :=
  atlasFold continuous cfg (gridPairs cfg.rows cfg.cols) zeroGrid

/-- Per-tile UV rectangle (u0, v0, u1, v1). -/
structure Rect where
  u0 : ℝ
  v0 : ℝ
  u1 : ℝ
  v1 : ℝ

/-- UV rectangles in row-major tile order (ContinuousTileGeneration.ts lines 85 to 94). -/
def rectsOf (cfg : TileGridConfig) : List Rect :=
  (gridPairs cfg.rows cfg.cols).map fun rc =>
    ⟨(rc.2 * innerOf cfg : ℕ) / (atlasW cfg : ℕ),
     (rc.1 * innerOf cfg : ℕ) / (atlasH cfg : ℕ),
     ((rc.2 + 1) * innerOf cfg : ℕ) / (atlasW cfg : ℕ),
     ((rc.1 + 1) * innerOf cfg : ℕ) / (atlasH cfg : ℕ)⟩

/-- Result record of a tile grid generation (TileStreaming.ts, GeneratedGrid). -/
structure GeneratedGrid where
  tiles : List HeightField
  innerSize : ℕ
  atlas : Grid
  atlasSize : ℕ
  rects : List Rect

/-- Embedding of generateContinuousTileGrid (ContinuousTileGeneration.ts lines 16 to 106)
from line 38 onward, taking the continuous heightfield (the result of generateTerrain
followed by resampleTo on lines 27 to 35, a computation over transcendental float
noise) as a parameter. Every property proved below therefore holds for every
continuous field, in particular for the one the noise pipeline produces. The source
function performs no validation and no exceptional exit on this path. -/
def generateContinuousTileGridFrom (continuous : HeightField) (cfg : TileGridConfig) :
    GeneratedGrid :=
  ⟨tileList continuous cfg, innerOf cfg, atlasOf continuous cfg,
   max (atlasW cfg) (atlasH cfg), rectsOf cfg⟩

/-- Minimum of a list of reals, with none standing for the +Infinity start value
of the JavaScript fold. -/
def listMin (l : List ℝ) : Option ℝ :=
  l.foldl (fun acc v => some (match acc with | none => v | some m => min m v)) none

/-- Maximum of a list of reals, with none standing for the -Infinity start value. -/
def listMax (l : List ℝ) : Option ℝ :=
  l.foldl (fun acc v => some (match acc with | none => v | some m => max m v)) none

/-- Body of generateTileGrid after validation (TileStreaming.ts lines 119 to 227):
per-tile generation, global min-max normalization across all tiles, atlas packing
of the inner regions, and UV rectangles. The per-tile noise generator generateTile
(transcendental float noise, lines 37 to 109) appears as the parameter gen. When
there are no data cells at all the JavaScript normalization loop body never runs,
matching the fallback span 1 used here; the legacy opt-in blendSeams path
(lines 151 to 188, default off) is not modelled and no claim concerns it. -/
def tileGridBody (gen : ℕ → ℕ → HeightField) (cfg : TileGridConfig) : GeneratedGrid :=
  let tiles0 : List HeightField := (gridPairs cfg.rows cfg.cols).map fun rc => gen rc.1 rc.2
  let allVals : List ℝ :=
    tiles0.flatMap fun t => (List.range (t.size * t.size)).map t.data
  let span : ℝ := match listMax allVals, listMin allVals with
    | some M, some m => if M - m = 0 then 1 else M - m
    | _, _ => 1
  let gMin : ℝ := match listMin allVals with | some m => m | none => 0
  let tiles : List HeightField := tiles0.map fun t => ⟨t.size, fun i => (t.data i - gMin) / span⟩
  let atlas : Grid :=
    (gridPairs cfg.rows cfg.cols).foldl
      (fun g rc => writeInner cfg (tiles.getD (rc.1 * cfg.cols + rc.2) ⟨0, zeroGrid⟩) rc.1 rc.2 g)
      zeroGrid
  ⟨tiles, innerOf cfg, atlas, max (atlasW cfg) (atlasH cfg), rectsOf cfg⟩

/-- Embedding of generateTileGrid (TileStreaming.ts lines 115 to 228). The entry
validation on line 117 throws for overlap at most 0 or twice the overlap at least
the tile size, before any allocation or tile generation; the thrown error is
modelled by the Except error branch. -/
def generateTileGrid (gen : ℕ → ℕ → HeightField) (cfg : TileGridConfig) :
    Except String GeneratedGrid :=
  if cfg.overlap = 0 ∨ cfg.tileSize ≤ 2 * cfg.overlap then
    Except.error "overlap must be >0 and < N/2"
  else
    Except.ok (tileGridBody gen cfg)

/-! ### Water system (src/terrain/filters/WaterSystem.ts) -/

/-- D8 direction offsets (dx, dy) in source order N, NE, E, SE, S, SW, W, NW
(WaterSystem.ts lines 34 to 35). -/
def dirs8 : List (ℤ × ℤ) :=
  [(0, -1), (1, -1), (1, 0), (1, 1), (0, 1), (-1, 1), (-1, 0), (-1, -1)]

/-- The eight neighbor offsets (dx, dy) in double-loop order, dy outer from -1 to 1,
dx inner from -1 to 1, skipping the center. -/
def nbrOffsets : List (ℤ × ℤ) :=
  [(-1, -1), (0, -1), (1, -1), (-1, 0), (1, 0), (-1, 1), (0, 1), (1, 1)]

/-- The nine window offsets (dx, dy) of a 3 by 3 neighborhood in double-loop order,
center included. -/
def win9 : List (ℤ × ℤ) :=
  [(-1, -1), (0, -1), (1, -1), (-1, 0), (0, 0), (1, 0), (-1, 1), (0, 1), (1, 1)]

/-- Euclidean length of an offset, Math.sqrt(dx*dx + dy*dy). -/
def offDist (d : ℤ × ℤ) : ℝ := Real.sqrt ((d.1 * d.1 + d.2 * d.2 : ℤ) : ℝ)

/-- A point record of the flow solver (WaterSystem.ts line 38): grid coordinates,
height and flat index. -/
structure Pt where
  x : ℕ
  y : ℕ
  height : ℝ
  index : ℕ

/-- Row-major enumeration of all pixels of a heightfield (WaterSystem.ts lines 39 to 44). -/
def pointsOf (hf : HeightField) : List Pt :=
  (List.range hf.size).flatMap fun y =>
    (List.range hf.size).map fun x => ⟨x, y, hf.data (idx hf.size y x), idx hf.size y x⟩

/-- Boolean comparison of the sort on line 45: the comparator
(a, b) => b.height - a.height orders by height descending. -/
def heightLe (a b : Pt) : Bool := decide (b.height ≤ a.height)

/-- The height-sorted point list, highest first (WaterSystem.ts line 45).
Array.prototype.sort is stable, so the stable mergeSort is the exact model;
ties keep the row-major enumeration order. -/
def sortPoints (hf : HeightField) : List Pt := (pointsOf hf).mergeSort heightLe

/-- Bounds guard of the neighbor scan (WaterSystem.ts line 60). -/
def dirValid (hf : HeightField) (p : Pt) (d : ℤ × ℤ) : Prop :=
  0 ≤ (p.x : ℤ) + d.1 ∧ (p.x : ℤ) + d.1 < (hf.size : ℤ) ∧
    0 ≤ (p.y : ℤ) + d.2 ∧ (p.y : ℤ) + d.2 < (hf.size : ℤ)

/-- Flat index of the neighbor of p in direction d (WaterSystem.ts line 61). -/
def dirIdx (hf : HeightField) (p : Pt) (d : ℤ × ℤ) : ℕ :=
  idx hf.size ((p.y : ℤ) + d.2).toNat ((p.x : ℤ) + d.1).toNat

/-- Slope toward the neighbor of p in direction d (WaterSystem.ts lines 62 to 63):
height drop divided by the Euclidean step distance. -/
def dirSlope (hf : HeightField) (p : Pt) (d : ℤ × ℤ) : ℝ :=
  (hf.data p.index - hf.data (dirIdx hf p d)) / offDist d

/-- Loop body of the neighbor scan (WaterSystem.ts lines 56 to 71): an in-bounds
neighbor strictly improving on the best slope so far replaces it. -/
def stepDir (hf : HeightField) (p : Pt) (acc : ℝ × Option ℕ) (d : ℤ × ℤ) :
    ℝ × Option ℕ :=
  if dirValid hf p d then
    if acc.1 < dirSlope hf p d then (dirSlope hf p d, some (dirIdx hf p d)) else acc
  else acc

/-- The steepest-descent scan over the eight neighbors (WaterSystem.ts lines 52 to 71):
fold over the directions keeping the best slope (starting at 0) and the index of the
current best strictly improving neighbor. -/
def bestNeighbor (hf : HeightField) (p : Pt) : ℝ × Option ℕ :=
  dirs8.foldl (stepDir hf p) (0, none)

/-- The in-bounds neighbors of p as pairs of flat index and step distance. -/
def nbrsOf (hf : HeightField) (p : Pt) : List (ℕ × ℝ) :=
  dirs8.filterMap fun d =>
    if dirValid hf p d then some (dirIdx hf p d, offDist d) else none

/-- Downhill slope of p toward a neighbor given as index and distance. -/
def slopeTo (hf : HeightField) (p : Pt) (q : ℕ × ℝ) : ℝ :=
  (hf.data p.index - hf.data q.1) / q.2

/-- Strict row-major order on points: earlier row, or same row and earlier column. -/
def lexLt (a b : Pt) : Prop := a.y < b.y ∨ (a.y = b.y ∧ a.x < b.x)

/-- The visit order the flow solver guarantees: height descending, ties broken by
lexicographic (y, x) order. -/
def visitsBefore (a b : Pt) : Prop :=
  b.height ≤ a.height ∧
    (b.height = a.height → a.y < b.y ∨ (a.y = b.y ∧ a.x ≤ b.x))

/-- State of the flow sweep: the accumulation grid and the processed flags. -/
structure FlowState where
  flow : Grid
  processed : ℕ → Bool

/-- One step of the descending sweep (WaterSystem.ts lines 48 to 80): skip if already
processed, otherwise add the current accumulation of the cell to the steepest
strictly downhill neighbor, if any, then mark the cell processed. -/
def flowStep (hf : HeightField) (st : FlowState) (p : Pt) : FlowState :=
  if st.processed p.index then st
  else
    let st2 : FlowState :=
      match (bestNeighbor hf p).2 with
      | some t => ⟨Function.update st.flow t (st.flow t + st.flow p.index), st.processed⟩
      | none => st
    ⟨st2.flow, Function.update st2.processed p.index true⟩

/-- D8 flow accumulation (WaterSystem.ts lines 20 to 83). Every cell starts with one
unit of flow; cells are visited from highest to lowest. The defensive branch on
line 25 (non-positive size or length mismatch) degenerates in this model to the
empty grid, which has no cells. -/
def calculateFlowAccumulation (hf : HeightField) : Grid :=
  if hf.size = 0 then zeroGrid
  else ((sortPoints hf).foldl (flowStep hf) ⟨fun _ => 1, fun _ => false⟩).flow

/-- A fresh array of length n in which every index is written once with a value
depending only on the index: cell i holds f i, out-of-range reads give the
Float32Array default 0. -/
def tabulate (n : ℕ) (f : ℕ → ℝ) : Grid := fun i => if i < n then f i else 0

/-- Running maximum of the first n cells of a grid, starting from 0
(WaterSystem.ts lines 95 to 100). -/
def maxFlowOf (n : ℕ) (flow : Grid) : ℝ :=
  (List.range n).foldl (fun m i => max m (flow i)) 0

/-- Per-cell gradient falloff of the river mask (WaterSystem.ts lines 105 to 115):
strong rivers above the threshold, a tributary band above 0.3 of the threshold,
zero otherwise. -/
def riverBaseCell (threshold maxFlow v : ℝ) : ℝ :=
  let normalizedFlow := v / maxFlow
  if threshold < normalizedFlow then
    min 1 ((normalizedFlow - threshold) / (1 - threshold))
  else if threshold * 0.3 < normalizedFlow then
    ((normalizedFlow - threshold * 0.3) / (threshold * 0.7)) * 0.3
  else 0

/-- The gradient-falloff river mask before dilation (WaterSystem.ts lines 104 to 116). -/
def riverBase (n : ℕ) (flow : Grid) (threshold maxFlow : ℝ) : Grid :=
  tabulate n fun i => riverBaseCell threshold maxFlow (flow i)

/-- Interior loop pairs (y, x) with both coordinates running from 1 to size - 2. -/
def interiorPairs (size : ℕ) : List (ℕ × ℕ) :=
  (List.range' 1 (size - 2)).flatMap fun y =>
    (List.range' 1 (size - 2)).map fun x => (y, x)

/-- Neighbor flat index of an interior cell (y, x) under an offset (dx, dy); the
interior bound makes the integer arithmetic total. -/
def nbrIdx (size y x : ℕ) (d : ℤ × ℤ) : ℕ :=
  idx size ((y : ℤ) + d.2).toNat ((x : ℤ) + d.1).toNat

/-- The river dilation pass (WaterSystem.ts lines 119 to 139): every interior cell of
the base mask above 0.5 spreads a decayed expansion into its 3 by 3 window,
accumulated by pointwise maximum into a copy of the base mask. -/
def dilateRivers (size : ℕ) (base : Grid) : Grid :=
  (interiorPairs size).foldl
    (fun sm yx =>
      if 0.5 < base (idx size yx.1 yx.2) then
        win9.foldl
          (fun sm2 d =>
            let nIdx := nbrIdx size yx.1 yx.2 d
            if offDist d ≤ 1.5 then
              Function.update sm2 nIdx
                (max (sm2 nIdx) (base (idx size yx.1 yx.2) * 0.6 * (1 - offDist d / 1.5)))
            else sm2)
          sm
      else sm)
    base

/-- River mask generation (WaterSystem.ts lines 86 to 147): normalize flow by its
maximum, apply the gradient falloff, then dilate; an all-zero flow field yields the
all-zero mask. -/
def generateRiverMask (hf : HeightField) (flowAccumulation : Grid) (threshold : ℝ) : Grid :=
  let n := hf.size * hf.size
  let maxFlow := maxFlowOf n flowAccumulation
  if maxFlow = 0 then zeroGrid
  else dilateRivers hf.size (riverBase n flowAccumulation threshold maxFlow)

/-- Integer offsets from lo to hi inclusive, empty when hi is below lo. -/
def rangeZ (lo hi : ℤ) : List ℤ :=
  (List.range (hi - lo + 1).toNat).map fun k => lo + (k : ℤ)

/-- Scan offsets (dx, dy) of the beach search window, dy outer, dx inner, both from
-W to W inclusive. -/
def beachOffsets (W : ℤ) : List (ℤ × ℤ) :=
  (rangeZ (-W) W).flatMap fun dy => (rangeZ (-W) W).map fun dx => (dx, dy)

/-- Per-cell beach value (WaterSystem.ts lines 167 to 195): water cells get 1; a
land cell takes a linear falloff from the first water cell found in its scan
window, matching the nearWater early exit of the source. -/
def beachCell (size : ℕ) (waterMask : Grid) (beachPixels : ℤ) (i : ℕ) : ℝ :=
  if 0 < waterMask i then 1
  else
    match (beachOffsets beachPixels).find? (fun d =>
        let nx : ℤ := ((i % size : ℕ) : ℤ) + d.1
        let ny : ℤ := ((i / size : ℕ) : ℤ) + d.2
        decide (0 ≤ nx ∧ nx < (size : ℤ) ∧ 0 ≤ ny ∧ ny < (size : ℤ) ∧
          0 < waterMask (idx size ny.toNat nx.toNat) ∧
          offDist d ≤ (beachPixels : ℝ))) with
    | some d => max 0 (1 - offDist d / (beachPixels : ℝ))
    | none => 0

/-- Beach mask generation (WaterSystem.ts lines 150 to 198): the water indicator
at sea level, then the per-cell beach value over all cells. -/
def generateBeachMask (hf : HeightField) (seaLevel beachWidth : ℝ) : Grid :=
  let size := hf.size
  let n := size * size
  let waterMask : Grid := tabulate n fun i => if hf.data i ≤ seaLevel then 1 else 0
  tabulate n (beachCell size waterMask ⌈beachWidth⌉)

/-- River carving profile selected by terrain hardness (WaterSystem.ts lines 250 to 265). -/
inductive RiverProfile where
  | canyon : RiverProfile
  | normal : RiverProfile
  | broad : RiverProfile

/-- Erosion falloff curve of each profile (WaterSystem.ts lines 284 to 296). -/
def erosionCurve (profile : RiverProfile) (nd : ℝ) : ℝ :=
  match profile with
  | .canyon => max 0 (1 - nd * nd)
  | .broad => max 0 (Real.cos (nd * Real.pi / 2))
  | .normal => max 0 (1 - nd ^ (1.5 : ℝ))

/-- Neighbor flat index with coordinates clamped into range (WaterSystem.ts
lines 221 to 222). -/
def clampedNbrIdx (size y x : ℕ) (d : ℤ × ℤ) : ℕ :=
  idx size (clampCoord size ((y : ℤ) + d.2)) (clampCoord size ((x : ℤ) + d.1))

/-- Terrain hardness from average local slope and absolute height (WaterSystem.ts
lines 211 to 236), computed on the pre-carve data. -/
def hardnessOf (size : ℕ) (data : Grid) : Grid :=
  tabulate (size * size) fun i =>
    let y := i / size
    let x := i % size
    let slope :=
      (nbrOffsets.foldl (fun s d => s + |data i - data (clampedNbrIdx size y x d)|) 0) / 8
    let heightFactor := max 0 (data i + 0.3)
    min 1 (slope * 3 + heightFactor * 0.4)

/-- One river cell carving its window into the live height data (WaterSystem.ts
lines 243 to 312): profile selection by hardness, then a gradual blend of every
in-range window cell toward the eroded target height. -/
def carveCell (size : ℕ) (riverMask hardness : Grid) (depth width : ℝ) (y x : ℕ)
    (data : Grid) : Grid :=
  let i := idx size y x
  if 0 < riverMask i then
    let riverStrength := riverMask i
    let terrainHardness := hardness i
    let carveWidth := if 0.7 < terrainHardness then width * 0.3
      else if 0.4 < terrainHardness then width * 0.7 else width * 1.8
    let carveDepth := if 0.7 < terrainHardness then depth * 2
      else if 0.4 < terrainHardness then depth * 1.2 else depth * 0.4
    let profile : RiverProfile := if 0.7 < terrainHardness then .canyon
      else if 0.4 < terrainHardness then .normal else .broad
    let carveRadius : ℤ := ⌈carveWidth / 2⌉
    (beachOffsets carveRadius).foldl
      (fun g d =>
        let nx : ℤ := (x : ℤ) + d.1
        let ny : ℤ := (y : ℤ) + d.2
        if 0 ≤ nx ∧ nx < (size : ℤ) ∧ 0 ≤ ny ∧ ny < (size : ℤ) then
          if offDist d ≤ (carveRadius : ℝ) then
            let nIdx := idx size ny.toNat nx.toNat
            let normalizedDist := offDist d / (carveRadius : ℝ)
            let maxErosion := carveDepth * riverStrength * erosionCurve profile normalizedDist
            let currentHeight := g nIdx
            let riverLevel := g i - carveDepth * riverStrength
            let targetHeight := max riverLevel (currentHeight - maxErosion)
            Function.update g nIdx (currentHeight + (targetHeight - currentHeight) * 0.7)
          else g
        else g)
      data
  else data

/-- Second pass of carveRivers (WaterSystem.ts lines 317 to 363): smooth river
channels and banks on the interior, reading the post-carve data. -/
def smoothRivers (size : ℕ) (riverMask data : Grid) : Grid := fun i =>
  let y := i / size
  let x := i % size
  if i < size * size ∧ 1 ≤ y ∧ y < size - 1 ∧ 1 ≤ x ∧ x < size - 1 then
    if 0.5 < riverMask i then
      let sc := win9.foldl
        (fun sc d =>
          let nIdx := nbrIdx size y x d
          if 0.3 < riverMask nIdx then (sc.1 + data nIdx, sc.2 + 1) else sc)
        ((0 : ℝ), (0 : ℕ))
      if 0 < sc.2 then sc.1 / (sc.2 : ℝ) else data i
    else if 0.1 < riverMask i then
      let sc := win9.foldl
        (fun sc d => (sc.1 + data (nbrIdx size y x d), sc.2 + 1)) ((0 : ℝ), (0 : ℕ))
      data i * 0.7 + (sc.1 / (sc.2 : ℝ)) * 0.3
    else data i
  else data i

/-- River carving (WaterSystem.ts lines 201 to 364): hardness from the pre-carve
data, the carving sweep over all cells in row-major order on the live data, then
the smoothing pass. -/
def carveRivers (size : ℕ) (data : Grid) (riverMask : Grid) (depth width : ℝ) : Grid :=
  let hardness := hardnessOf size data
  let carved :=
    (gridPairs size size).foldl
      (fun g yx => carveCell size riverMask hardness depth width yx.1 yx.2 g) data
  smoothRivers size riverMask carved

/-- Coastal erosion (WaterSystem.ts lines 367 to 381): beach cells slope gently
toward the water, never eroding below 30 percent of the original height. -/
def applyCoastalErosion (n : ℕ) (data beachMask : Grid) (erosionAmount : ℝ) : Grid :=
  fun i =>
    if i < n ∧ 0 < beachMask i then
      max (data i - erosionAmount * beachMask i) (data i * 0.3)
    else data i

/-- Water system parameters (WaterSystem.ts lines 3 to 10). -/
structure WaterSystemParams where
  seaLevel : ℝ
  riverThreshold : ℝ
  riverWidth : ℝ
  riverDepth : ℝ
  coastalErosion : ℝ
  beachWidth : ℝ

/-- Water feature outputs (WaterSystem.ts lines 12 to 17). -/
structure WaterFeatures where
  waterMask : Grid
  riverMask : Grid
  beachMask : Grid
  flowAccumulation : Grid

/-- Main water system application (WaterSystem.ts lines 384 to 412): flow, masks,
carving, coastal erosion, then the final water mask as the pointwise maximum of
the below-sea-level indicator on the carved heights and the river mask. Returns
the features together with the mutated height data. -/
def applyWaterSystem (hf : HeightField) (params : WaterSystemParams) :
    WaterFeatures × Grid :=
  let n := hf.size * hf.size
  let flowAccumulation := calculateFlowAccumulation hf
  let riverMask := generateRiverMask hf flowAccumulation params.riverThreshold
  let beachMask := generateBeachMask hf params.seaLevel params.beachWidth
  let data1 := carveRivers hf.size hf.data riverMask params.riverDepth params.riverWidth
  let data2 := applyCoastalErosion n data1 beachMask params.coastalErosion
  let waterMask := tabulate n fun i =>
    max (if data2 i ≤ params.seaLevel then 1 else 0) (riverMask i)
  (⟨waterMask, riverMask, beachMask, flowAccumulation⟩, data2)

/-! ### Geological erosion (src/terrain/filters/GeologicalErosion.ts) -/

/-- Erosion parameters (GeologicalErosion.ts lines 4 to 10). -/
structure ErosionParams where
  timeYears : ℝ
  seaLevel : ℝ
  windStrength : ℝ
  rainIntensity : ℝ
  temperatureCycles : ℝ

/-- Wind erosion (GeologicalErosion.ts lines 20 to 54): per interior cell, exposure
above the running neighbor maximum (started at 0) drives an unclamped subtraction
from the live height data; the eroded amount accumulates into the erosion mask. -/
def applyWindErosion (size : ℕ) (data : Grid) (params : ErosionParams)
    (iterations : ℕ) : Grid × Grid :=
  (List.range iterations).foldl
    (fun st _ =>
      (interiorPairs size).foldl
        (fun st2 yx =>
          let i := idx size yx.1 yx.2
          let maxNeighborHeight :=
            nbrOffsets.foldl (fun m d => max m (st2.1 (nbrIdx size yx.1 yx.2 d))) 0
          let exposure := max 0 (st2.1 i - maxNeighborHeight + 0.1)
          let windErosion := params.windStrength * exposure * 0.01
          if 0 < windErosion then
            (Function.update st2.1 i (st2.1 i - windErosion),
             Function.update st2.2 i (st2.2 i + windErosion))
          else st2)
        st)
    (data, zeroGrid)

/-- One double-buffered thermal iteration (GeologicalErosion.ts lines 63 to 96):
slopes are read from the iteration-start data, mass moves between cells of the
write buffer; returns the new data and the updated erosion mask. -/
def thermalIter (size : ℕ) (temperatureCycles : ℝ) (data mask : Grid) : Grid × Grid :=
  (interiorPairs size).foldl
    (fun st yx =>
      nbrOffsets.foldl
        (fun st2 d =>
          let i := idx size yx.1 yx.2
          let nIdx := nbrIdx size yx.1 yx.2 d
          let heightDiff := data i - data nIdx
          if 0.8 < heightDiff then
            let erosionAmount := (heightDiff - 0.8) * temperatureCycles * 0.001
            let nd1 := Function.update st2.1 i (st2.1 i - erosionAmount * 0.5)
            (Function.update nd1 nIdx (nd1 nIdx + erosionAmount * 0.5),
             Function.update st2.2 i (st2.2 i + erosionAmount * 0.5))
          else st2)
        st)
    (data, mask)

/-- Thermal erosion (GeologicalErosion.ts lines 57 to 100): iterated double-buffered
talus transport; cells steeper than the talus angle 0.8 shed mass to the lower
neighbor, half the computed erosion amount each. -/
def applyThermalErosion (size : ℕ) (data : Grid) (params : ErosionParams)
    (iterations : ℕ) : Grid × Grid :=
  (List.range iterations).foldl
    (fun st _ => thermalIter size params.temperatureCycles st.1 st.2)
    (data, zeroGrid)

/-- Hydraulic erosion (GeologicalErosion.ts lines 103 to 183): per interior cell of
the live data, erosion proportional to normalized flow times slope plus river
strength times slope; 30 percent of the removed material deposits on the steepest
downhill neighbor measured after the removal. Returns data, erosion mask and
deposition mask. -/
def applyHydraulicErosion (size : ℕ) (data : Grid) (riverMask flowAccumulation : Grid)
    (params : ErosionParams) (iterations : ℕ) : Grid × Grid × Grid :=
  let maxFlow := maxFlowOf (size * size) flowAccumulation
  (List.range iterations).foldl
    (fun st _ =>
      (interiorPairs size).foldl
        (fun st2 yx =>
          let i := idx size yx.1 yx.2
          let flow := flowAccumulation i / maxFlow
          let riverStrength := riverMask i
          let avgSlope :=
            (nbrOffsets.foldl
              (fun s d => s + |st2.1 i - st2.1 (nbrIdx size yx.1 yx.2 d)|) 0) / 8
          let totalErosion := flow * avgSlope * params.rainIntensity * 0.02 +
            riverStrength * avgSlope * params.rainIntensity * 0.05
          if 0 < totalErosion then
            let d1 := Function.update st2.1 i (st2.1 i - totalErosion)
            let em1 := Function.update st2.2.1 i (st2.2.1 i + totalErosion)
            let best := nbrOffsets.foldl
              (fun acc d =>
                let nIdx := nbrIdx size yx.1 yx.2 d
                let slope := d1 i - d1 nIdx
                if acc.1 < slope then (slope, some nIdx) else acc)
              ((0 : ℝ), (none : Option ℕ))
            match best.2 with
            | some t =>
              (Function.update d1 t (d1 t + totalErosion * 0.3), em1,
               Function.update st2.2.2 t (st2.2.2 t + totalErosion * 0.3))
            | none => (d1, em1, st2.2.2)
          else st2)
        st)
    (data, zeroGrid, zeroGrid)

/-- Pointwise sum of two masks over the first n cells (the accumulation loops of
GeologicalErosion.ts lines 225 to 259). -/
def addInto (n : ℕ) (a b : Grid) : Grid := fun i => if i < n then a i + b i else a i

/-- Wind iteration budget, Math.ceil(timeYears / 100) (GeologicalErosion.ts line 193). -/
def windIterations (t : ℝ) : ℤ := ⌈t / 100⌉

/-- Thermal iteration budget, Math.ceil(timeYears / 50) (GeologicalErosion.ts line 194). -/
def thermalIterations (t : ℝ) : ℤ := ⌈t / 50⌉

/-- Hydraulic iteration budget, Math.ceil(timeYears / 25) (GeologicalErosion.ts line 195). -/
def hydraulicIterations (t : ℝ) : ℤ := ⌈t / 25⌉

/-- Result of the geological pipeline (GeologicalErosion.ts lines 12 to 17). -/
structure GeologicalResult where
  heightField : HeightField
  waterFeatures : WaterFeatures
  erosionMask : Grid
  depositionMask : Grid

/-- Main geological erosion pipeline (GeologicalErosion.ts lines 186 to 276):
iteration budgets from the time scale, initial water features on the base terrain,
then wind, thermal and hydraulic passes in fixed order, each gated by its strength
parameter, with flow and masks recomputed before the hydraulic pass. -/
def applyGeologicalErosion (hf : HeightField) (params : ErosionParams) :
    GeologicalResult :=
  let size := hf.size
  let n := size * size
  let wI := (windIterations params.timeYears).toNat
  let tI := (thermalIterations params.timeYears).toNat
  let hI := (hydraulicIterations params.timeYears).toNat
  let flowAccumulation := calculateFlowAccumulation hf
  let riverMask := generateRiverMask hf flowAccumulation 0.08
  let beachMask := generateBeachMask hf (params.seaLevel / 1000) 8
  let waterMask0 := tabulate n fun i =>
    max (if hf.data i ≤ params.seaLevel / 1000 then 1 else 0) (riverMask i)
  let windRes := if 0 < params.windStrength then applyWindErosion size hf.data params wI
    else (hf.data, zeroGrid)
  let total1 := if 0 < params.windStrength then addInto n zeroGrid windRes.2 else zeroGrid
  let thermalRes := if 0 < params.temperatureCycles then
    applyThermalErosion size windRes.1 params tI else (windRes.1, zeroGrid)
  let total2 := if 0 < params.temperatureCycles then addInto n total1 thermalRes.2
    else total1
  if 0 < params.rainIntensity then
    let newFlow := calculateFlowAccumulation ⟨size, thermalRes.1⟩
    let newRiver := generateRiverMask ⟨size, thermalRes.1⟩ newFlow 0.08
    let newBeach := generateBeachMask ⟨size, thermalRes.1⟩ (params.seaLevel / 1000) 8
    let hydroRes := applyHydraulicErosion size thermalRes.1 newRiver newFlow params hI
    let waterMaskF := tabulate n fun i =>
      max (if hydroRes.1 i ≤ params.seaLevel / 1000 then 1 else 0) (newRiver i)
    ⟨⟨size, hydroRes.1⟩, ⟨waterMaskF, newRiver, newBeach, newFlow⟩,
     addInto n total2 hydroRes.2.1, addInto n zeroGrid hydroRes.2.2⟩
  else
    ⟨⟨size, thermalRes.1⟩, ⟨waterMask0, riverMask, beachMask, flowAccumulation⟩,
     total2, zeroGrid⟩

end

/-! ### Index and single-write lemmas -/

theorem mem_gridPairs {rows cols : ℕ} {p : ℕ × ℕ} :
    p ∈ gridPairs rows cols ↔ p.1 < rows ∧ p.2 < cols := by
  cases p with
  | mk y x =>
    simp only [gridPairs, List.mem_flatMap, List.mem_map, List.mem_range, Prod.mk.injEq]
    constructor
    · rintro ⟨y0, hy0, x0, hx0, rfl, rfl⟩
      exact ⟨hy0, hx0⟩
    · rintro ⟨hy, hx⟩
      exact ⟨y, hy, x, hx, rfl, rfl⟩

theorem length_gridPairs (rows cols : ℕ) : (gridPairs rows cols).length = rows * cols := by
  induction rows with
  | zero => simp [gridPairs]
  | succ n ih =>
    have : gridPairs (n + 1) cols =
        gridPairs n cols ++ (List.range cols).map fun x => (n, x) := by
      simp [gridPairs, List.range_succ]
    rw [this, List.length_append, ih, List.length_map, List.length_range]
    ring

theorem idx_lt {h w y x : ℕ} (hy : y < h) (hx : x < w) : idx w y x < h * w := by
  have h1 : y * w + x < (y + 1) * w := by
    have : (y + 1) * w = y * w + w := by ring
    omega
  exact lt_of_lt_of_le h1 (Nat.mul_le_mul_right w hy)

theorem idx_inj {w y₁ x₁ y₂ x₂ : ℕ} (h₁ : x₁ < w) (h₂ : x₂ < w)
    (h : idx w y₁ x₁ = idx w y₂ x₂) : y₁ = y₂ ∧ x₁ = x₂ := by
  simp only [idx] at h
  have hx : x₁ = x₂ := by
    have e₁ : (y₁ * w + x₁) % w = x₁ := by
      rw [Nat.mul_comm y₁ w, Nat.mul_add_mod]; exact Nat.mod_eq_of_lt h₁
    have e₂ : (y₂ * w + x₂) % w = x₂ := by
      rw [Nat.mul_comm y₂ w, Nat.mul_add_mod]; exact Nat.mod_eq_of_lt h₂
    rw [← e₁, ← e₂, h]
  refine ⟨?_, hx⟩
  have hw : 0 < w := lt_of_le_of_lt (Nat.zero_le _) h₁
  have : y₁ * w = y₂ * w := by omega
  exact Nat.eq_of_mul_eq_mul_right hw this

theorem writeCells_of_not_mem {enc : ℕ × ℕ → ℕ} {f : ℕ × ℕ → ℝ} {i : ℕ} :
    ∀ (ps : List (ℕ × ℕ)) (g : Grid), (∀ p ∈ ps, enc p ≠ i) →
      writeCells ps enc f g i = g i := by
  intro ps
  induction ps with
  | nil => intro g _; rfl
  | cons q t ih =>
    intro g h
    have hrw : writeCells (q :: t) enc f g =
        writeCells t enc f (Function.update g (enc q) (f q)) := rfl
    rw [hrw, ih _ (fun p hp => h p (List.mem_cons_of_mem _ hp))]
    exact Function.update_noteq (Ne.symm (h q (List.mem_cons_self _ _))) _ _

theorem writeCells_of_mem {enc : ℕ × ℕ → ℕ} {f : ℕ × ℕ → ℝ} {i : ℕ} {v : ℝ} :
    ∀ (ps : List (ℕ × ℕ)) (g : Grid), (∃ p ∈ ps, enc p = i) →
      (∀ p ∈ ps, enc p = i → f p = v) → writeCells ps enc f g i = v := by
  intro ps
  induction ps with
  | nil =>
    intro g hex _
    rcases hex with ⟨p, hp, _⟩
    cases hp
  | cons q t ih =>
    intro g hex hval
    have hrw : writeCells (q :: t) enc f g =
        writeCells t enc f (Function.update g (enc q) (f q)) := rfl
    by_cases ht : ∃ p ∈ t, enc p = i
    · rw [hrw]
      exact ih _ ht fun p hp hpi => hval p (List.mem_cons_of_mem _ hp) hpi
    · have hqi : enc q = i := by
        rcases hex with ⟨p, hp, hpi⟩
        rcases List.mem_cons.mp hp with rfl | hpt
        · exact hpi
        · exact absurd ⟨p, hpt, hpi⟩ ht
      rw [hrw, writeCells_of_not_mem t _ (fun p hp hpi => ht ⟨p, hp, hpi⟩), hqi,
        Function.update_same]
      exact hval q (List.mem_cons_self _ _) hqi

theorem get_eq_data {h : HeightField} {x y : ℕ} (hx : x < h.size) (hy : y < h.size) :
    h.get (x : ℤ) (y : ℤ) = h.data (idx h.size y x) := by
  have cx : clampCoord h.size (x : ℤ) = x := by
    simp only [clampCoord, Int.toNat_natCast]; omega
  have cy : clampCoord h.size (y : ℤ) = y := by
    simp only [clampCoord, Int.toNat_natCast]; omega
  simp only [HeightField.get, cx, cy]

theorem extractTile_data {cont : HeightField} {cfg : TileGridConfig} {r c x y : ℕ}
    (hx : x < cfg.tileSize) (hy : y < cfg.tileSize) :
    (extractTile cont cfg r c).data (idx cfg.tileSize y x) =
      cont.get ((c * innerOf cfg + x : ℕ) : ℤ) ((r * innerOf cfg + y : ℕ) : ℤ) := by
  apply writeCells_of_mem
  · exact ⟨(y, x), mem_gridPairs.mpr ⟨hy, hx⟩, rfl⟩
  · rintro ⟨y0, x0⟩ hp hpi
    have hx0 : x0 < cfg.tileSize := (mem_gridPairs.mp hp).2
    obtain ⟨rfl, rfl⟩ := idx_inj hx0 hx hpi
    rfl

/-- Collision analysis of atlas writes: two inner-region target indices coincide
only for the same tile and the same inner cell. -/
theorem atlas_idx_inj {cfg : TileGridConfig} {r c x y r0 c0 x0 y0 : ℕ}
    (hc : c < cfg.cols) (hx : x < innerOf cfg) (hy : y < innerOf cfg)
    (hc0 : c0 < cfg.cols) (hx0 : x0 < innerOf cfg) (hy0 : y0 < innerOf cfg)
    (h : idx (atlasW cfg) (r0 * innerOf cfg + y0) (c0 * innerOf cfg + x0) =
      idx (atlasW cfg) (r * innerOf cfg + y) (c * innerOf cfg + x)) :
    r0 = r ∧ c0 = c ∧ y0 = y ∧ x0 = x := by
  have hX : c * innerOf cfg + x < atlasW cfg := idx_lt hc hx
  have hX0 : c0 * innerOf cfg + x0 < atlasW cfg := idx_lt hc0 hx0
  obtain ⟨hrow, hcol⟩ := idx_inj hX0 hX h
  obtain ⟨hc1, hx1⟩ := idx_inj hx0 hx hcol
  obtain ⟨hr1, hy1⟩ := idx_inj hy0 hy hrow
  exact ⟨hr1, hc1, hy1, hx1⟩

/-- Tiles whose grid position differs from (r, c) never write at the atlas index of
the inner cell (x, y) of tile (r, c). -/
theorem atlasFold_untouched {cont : HeightField} {cfg : TileGridConfig} {r c x y : ℕ}
    (hc : c < cfg.cols) (hx : x < innerOf cfg) (hy : y < innerOf cfg) :
    ∀ (L : List (ℕ × ℕ)) (g : Grid), (∀ p ∈ L, p.2 < cfg.cols) →
      (∀ p ∈ L, p ≠ (r, c)) →
      atlasFold cont cfg L g (idx (atlasW cfg) (r * innerOf cfg + y) (c * innerOf cfg + x)) =
        g (idx (atlasW cfg) (r * innerOf cfg + y) (c * innerOf cfg + x)) := by
  intro L
  induction L with
  | nil => intro g _ _; rfl
  | cons q t ih =>
    intro g hcols hno
    have hrw : atlasFold cont cfg (q :: t) g =
        atlasFold cont cfg t (writeInner cfg (extractTile cont cfg q.1 q.2) q.1 q.2 g) := rfl
    rw [hrw, ih _ (fun p hp => hcols p (List.mem_cons_of_mem _ hp))
      (fun p hp => hno p (List.mem_cons_of_mem _ hp))]
    apply writeCells_of_not_mem
    rintro ⟨y0, x0⟩ hp0 hpi
    have hb := mem_gridPairs.mp hp0
    obtain ⟨hr1, hc1, _, _⟩ := atlas_idx_inj hc hx hy
      (hcols q (List.mem_cons_self _ _)) hb.2 hb.1 hpi
    exact hno q (List.mem_cons_self _ _) (by cases q; simp_all)

/-- Reading the atlas fold at an inner cell of a tile position occurring in the list
returns the inner value of that tile. -/
theorem atlasFold_read {cont : HeightField} {cfg : TileGridConfig} {r c x y : ℕ}
    (hc : c < cfg.cols) (hx : x < innerOf cfg) (hy : y < innerOf cfg) :
    ∀ (L : List (ℕ × ℕ)) (g : Grid), (∀ p ∈ L, p.2 < cfg.cols) → (r, c) ∈ L →
      atlasFold cont cfg L g (idx (atlasW cfg) (r * innerOf cfg + y) (c * innerOf cfg + x)) =
        (extractTile cont cfg r c).get ((x + cfg.overlap : ℕ) : ℤ)
          ((y + cfg.overlap : ℕ) : ℤ) := by
  intro L
  induction L with
  | nil => intro g _ hmem; cases hmem
  | cons q t ih =>
    intro g hcols hmem
    have hrw : atlasFold cont cfg (q :: t) g =
        atlasFold cont cfg t (writeInner cfg (extractTile cont cfg q.1 q.2) q.1 q.2 g) := rfl
    by_cases hmt : (r, c) ∈ t
    · rw [hrw]
      exact ih _ (fun p hp => hcols p (List.mem_cons_of_mem _ hp)) hmt
    · have hq : q = (r, c) := by
        rcases List.mem_cons.mp hmem with h | h
        · exact h.symm
        · exact absurd h hmt
      subst hq
      rw [hrw, atlasFold_untouched hc hx hy t _
        (fun p hp => hcols p (List.mem_cons_of_mem _ hp))
        (fun p hp hpc => hmt (hpc ▸ hp))]
      apply writeCells_of_mem
      · exact ⟨(y, x), mem_gridPairs.mpr ⟨hy, hx⟩, rfl⟩
      · rintro ⟨y0, x0⟩ hp0 hpi
        have hb := mem_gridPairs.mp hp0
        obtain ⟨_, _, hy1, hx1⟩ := atlas_idx_inj hc hx hy hc hb.2 hb.1 hpi
        subst hy1; subst hx1
        rfl

/-- C1 counterexample. In a 1 by 2 grid with tileSize 4 and overlap 1 (so inner = 2)
over the continuous field whose cell value is its flat index, the right-inner edge
column of tile (0,0) (tile x = overlap + inner - 1 = 2) and the left-inner edge
column of tile (0,1) (tile x = overlap = 1) read adjacent, unequal columns of the
continuous field: at y = 0 the values are 2 and 3. -/
theorem innerEdge_counterexample :
    (extractTile ⟨6, fun i => (i : ℝ)⟩ ⟨1, 2, 4, 1⟩ 0 0).data (idx 4 0 2) ≠
      (extractTile ⟨6, fun i => (i : ℝ)⟩ ⟨1, 2, 4, 1⟩ 0 1).data (idx 4 0 1) := by
  rw [show (4 : ℕ) = (⟨1, 2, 4, 1⟩ : TileGridConfig).tileSize from rfl,
    extractTile_data (by norm_num) (by norm_num),
    extractTile_data (by norm_num) (by norm_num),
    get_eq_data (by norm_num [innerOf]) (by norm_num [innerOf]),
    get_eq_data (by norm_num [innerOf]) (by norm_num [innerOf])]
  norm_num [innerOf, idx]

/-- C1, amended. For every continuous field and configuration: grid-adjacent tiles
agree pointwise on their entire shared overlap band (the column of tile (r,c) at
x = inner + k equals the column of tile (r,c+1) at x = k, for k below 2*overlap,
and likewise vertically), and every atlas cell of the inner region of tile (r,c) is
bit-identical to the corresponding cell of the original continuous heightfield.
The inner regions of adjacent tiles abut in the continuous field, so the last inner
column of one tile and the first inner column of its right neighbor are adjacent,
in general unequal, columns. -/
theorem tile_overlap_and_atlas_exact (continuous : HeightField) (cfg : TileGridConfig) :
    (∀ r c k y, k < 2 * cfg.overlap → 2 * cfg.overlap ≤ cfg.tileSize →
      y < cfg.tileSize →
      (extractTile continuous cfg r c).data (idx cfg.tileSize y (innerOf cfg + k)) =
        (extractTile continuous cfg r (c + 1)).data (idx cfg.tileSize y k)) ∧
    (∀ r c k x, k < 2 * cfg.overlap → 2 * cfg.overlap ≤ cfg.tileSize →
      x < cfg.tileSize →
      (extractTile continuous cfg r c).data (idx cfg.tileSize (innerOf cfg + k) x) =
        (extractTile continuous cfg (r + 1) c).data (idx cfg.tileSize k x)) ∧
    (∀ r c x y, r < cfg.rows → c < cfg.cols → x < innerOf cfg → y < innerOf cfg →
      atlasOf continuous cfg
          (idx (atlasW cfg) (r * innerOf cfg + y) (c * innerOf cfg + x)) =
        continuous.get ((c * innerOf cfg + (x + cfg.overlap) : ℕ) : ℤ)
          ((r * innerOf cfg + (y + cfg.overlap) : ℕ) : ℤ)) := by
  refine ⟨?_, ?_, ?_⟩
  · intro r c k y hk h2O hy
    have hlt : innerOf cfg + k < cfg.tileSize := by
      simp only [innerOf]; omega
    rw [extractTile_data hlt hy, extractTile_data (by omega : k < cfg.tileSize) hy]
    have : c * innerOf cfg + (innerOf cfg + k) = (c + 1) * innerOf cfg + k := by ring
    rw [this]
  · intro r c k x hk h2O hx
    have hlt : innerOf cfg + k < cfg.tileSize := by
      simp only [innerOf]; omega
    rw [extractTile_data hx hlt, extractTile_data hx (by omega : k < cfg.tileSize)]
    have : r * innerOf cfg + (innerOf cfg + k) = (r + 1) * innerOf cfg + k := by ring
    rw [this]
  · intro r c x y hr hc hx hy
    have hxN : x + cfg.overlap < cfg.tileSize := by
      simp only [innerOf] at hx; omega
    have hyN : y + cfg.overlap < cfg.tileSize := by
      simp only [innerOf] at hy; omega
    rw [show atlasOf continuous cfg =
        atlasFold continuous cfg (gridPairs cfg.rows cfg.cols) zeroGrid from rfl,
      atlasFold_read hc hx hy _ _ (fun p hp => (mem_gridPairs.mp hp).2)
        (mem_gridPairs.mpr ⟨hr, hc⟩),
      get_eq_data hxN hyN,
      show (extractTile continuous cfg r c).size = cfg.tileSize from rfl,
      extractTile_data hxN hyN]

/-- Witness for the amended C1 at a concrete input: in the 1 by 2 grid with
tileSize 4 and overlap 1 over the index-valued continuous field, the overlap
column of tile (0,0) at x = inner + 0 equals the column of tile (0,1) at x = 0. -/
theorem tile_overlap_and_atlas_exact_witness :
    (extractTile ⟨6, fun i => (i : ℝ)⟩ ⟨1, 2, 4, 1⟩ 0 0).data
        (idx 4 0 (innerOf ⟨1, 2, 4, 1⟩ + 0)) =
      (extractTile ⟨6, fun i => (i : ℝ)⟩ ⟨1, 2, 4, 1⟩ 0 1).data (idx 4 0 0) :=
  (tile_overlap_and_atlas_exact ⟨6, fun i => (i : ℝ)⟩ ⟨1, 2, 4, 1⟩).1 0 0 0 0
    (by norm_num) (by norm_num) (by norm_num)

/-- C9 counterexample: generateContinuousTileGrid performs no overlap validation.
With overlap 0 (which the claim says must raise a ConfigError) the continuous
entry point completes normally and produces a full grid of tiles. -/
theorem continuous_no_validation :
    (generateContinuousTileGridFrom ⟨8, fun i => (i : ℝ)⟩ ⟨1, 2, 4, 0⟩).innerSize = 4 ∧
      (generateContinuousTileGridFrom ⟨8, fun i => (i : ℝ)⟩ ⟨1, 2, 4, 0⟩).tiles.length = 2 := by
  constructor
  · rfl
  · show (tileList _ _).length = 2
    rw [tileList, List.length_map, length_gridPairs]
    rfl

/-- C9, amended. generateTileGrid raises the ConfigError (overlap at most 0, or
twice the overlap at least the tile size) before any tile is generated: the error
result does not depend on the tile generator. Otherwise it returns the generated
grid. generateContinuousTileGrid performs no such validation: it completes
normally on every configuration, producing rows times cols tiles. -/
theorem tileGrid_validates_overlap :
    (∀ (gen : ℕ → ℕ → HeightField) (cfg : TileGridConfig),
      (cfg.overlap = 0 ∨ cfg.tileSize ≤ 2 * cfg.overlap) →
      generateTileGrid gen cfg = Except.error "overlap must be >0 and < N/2") ∧
    (∀ (gen : ℕ → ℕ → HeightField) (cfg : TileGridConfig),
      ¬(cfg.overlap = 0 ∨ cfg.tileSize ≤ 2 * cfg.overlap) →
      generateTileGrid gen cfg = Except.ok (tileGridBody gen cfg)) ∧
    (∀ (continuous : HeightField) (cfg : TileGridConfig),
      (generateContinuousTileGridFrom continuous cfg).tiles.length =
        cfg.rows * cfg.cols) := by
  refine ⟨?_, ?_, ?_⟩
  · intro gen cfg h
    simp only [generateTileGrid, if_pos h]
  · intro gen cfg h
    simp only [generateTileGrid, if_neg h]
  · intro continuous cfg
    show (tileList _ _).length = _
    rw [tileList, List.length_map, length_gridPairs]

/-- Witness for C9 at a concrete input: overlap 0 makes generateTileGrid throw,
independently of the tile generator. -/
theorem tileGrid_validates_overlap_witness :
    generateTileGrid (fun _ _ => ⟨0, zeroGrid⟩) ⟨1, 1, 512, 0⟩ =
      Except.error "overlap must be >0 and < N/2" :=
  tileGrid_validates_overlap.1 _ _ (Or.inl rfl)

/-- The six UV rectangles of the 2 by 3 grid with tileSize 512 and overlap 32,
evaluated: thirds horizontally, halves vertically. -/
theorem rectsOf_cfg1337 :
    rectsOf ⟨2, 3, 512, 32⟩ =
      [⟨0, 0, 1/3, 1/2⟩, ⟨1/3, 0, 2/3, 1/2⟩, ⟨2/3, 0, 1, 1/2⟩,
       ⟨0, 1/2, 1/3, 1⟩, ⟨1/3, 1/2, 2/3, 1⟩, ⟨2/3, 1/2, 1, 1⟩] := by
  have hgp : gridPairs 2 3 = [(0, 0), (0, 1), (0, 2), (1, 0), (1, 1), (1, 2)] := by decide
  show (gridPairs 2 3).map _ = _
  rw [hgp]
  norm_num [innerOf, atlasW, atlasH, Rect.mk.injEq]

/-- C8 counterexample: with rows 2, cols 3, tileSize 512, overlap 32 the atlas
width is cols * (tileSize - 2*overlap) = 3 * 448 = 1344, not 1440. -/
theorem atlas_size_counterexample : atlasW ⟨2, 3, 512, 32⟩ ≠ 1440 := by decide

/-- C8, amended. The atlas is a row-major float grid of width cols * inner and
height rows * inner; for rows 2, cols 3, tileSize 512, overlap 32 this is
1344 by 896 (inner = 448), not 1440 by 960, and the six UV rectangles tile the
unit square exactly: their union is the unit square and their interiors are
pairwise disjoint. -/
theorem atlas_dims_and_rect_tiling :
    (∀ cfg : TileGridConfig,
      atlasW cfg = cfg.cols * (cfg.tileSize - 2 * cfg.overlap) ∧
      atlasH cfg = cfg.rows * (cfg.tileSize - 2 * cfg.overlap)) ∧
    atlasW ⟨2, 3, 512, 32⟩ = 1344 ∧ atlasH ⟨2, 3, 512, 32⟩ = 896 ∧
    (rectsOf ⟨2, 3, 512, 32⟩).length = 6 ∧
    (⋃ R ∈ rectsOf ⟨2, 3, 512, 32⟩, Set.Icc R.u0 R.u1 ×ˢ Set.Icc R.v0 R.v1) =
      Set.Icc (0 : ℝ) 1 ×ˢ Set.Icc (0 : ℝ) 1 ∧
    (rectsOf ⟨2, 3, 512, 32⟩).Pairwise (fun R₁ R₂ =>
      (Set.Ioo R₁.u0 R₁.u1 ×ˢ Set.Ioo R₁.v0 R₁.v1) ∩
        (Set.Ioo R₂.u0 R₂.u1 ×ˢ Set.Ioo R₂.v0 R₂.v1) = ∅) := by
  refine ⟨fun cfg => ⟨rfl, rfl⟩, by decide, by decide, by rw [rectsOf_cfg1337]; rfl, ?_, ?_⟩
  · rw [rectsOf_cfg1337]
    simp only [List.mem_cons, List.not_mem_nil, or_false,
      Set.iUnion_iUnion_eq_or_left, Set.iUnion_iUnion_eq_left]
    ext p
    simp only [Set.mem_union, Set.mem_prod, Set.mem_Icc]
    constructor
    · rintro (⟨⟨h1, h2⟩, h3, h4⟩ | ⟨⟨h1, h2⟩, h3, h4⟩ | ⟨⟨h1, h2⟩, h3, h4⟩ |
        ⟨⟨h1, h2⟩, h3, h4⟩ | ⟨⟨h1, h2⟩, h3, h4⟩ | ⟨⟨h1, h2⟩, h3, h4⟩) <;>
        exact ⟨⟨by linarith, by linarith⟩, by linarith, by linarith⟩
    · rintro ⟨⟨hu0, hu1⟩, hv0, hv1⟩
      rcases le_or_lt p.1 (1/3) with h1 | h1
      · rcases le_or_lt p.2 (1/2) with h2 | h2
        · exact Or.inl ⟨⟨hu0, h1⟩, hv0, h2⟩
        · exact Or.inr (Or.inr (Or.inr (Or.inl ⟨⟨hu0, h1⟩, by linarith, hv1⟩)))
      · rcases le_or_lt p.1 (2/3) with h3 | h3
        · rcases le_or_lt p.2 (1/2) with h2 | h2
          · exact Or.inr (Or.inl ⟨⟨by linarith, h3⟩, hv0, h2⟩)
          · exact Or.inr (Or.inr (Or.inr (Or.inr (Or.inl
              ⟨⟨by linarith, h3⟩, by linarith, hv1⟩))))
        · rcases le_or_lt p.2 (1/2) with h2 | h2
          · exact Or.inr (Or.inr (Or.inl ⟨⟨by linarith, hu1⟩, hv0, h2⟩))
          · exact Or.inr (Or.inr (Or.inr (Or.inr (Or.inr
              ⟨⟨by linarith, hu1⟩, by linarith, hv1⟩))))
  · rw [rectsOf_cfg1337]
    simp only [List.pairwise_cons, List.mem_cons, List.not_mem_nil, or_false,
      forall_eq_or_imp, forall_eq, false_implies, implies_true, and_true]
    repeat' apply And.intro
    all_goals first
      | exact List.Pairwise.nil
      | exact trivial
      | (apply Set.eq_empty_iff_forall_not_mem.mpr
         rintro ⟨u, v⟩ ⟨⟨⟨a1, a2⟩, b1, b2⟩, ⟨c1, c2⟩, d1, d2⟩
         linarith)

/-! ### Flow solver properties -/

/-- The descending sweep preserves the pointwise floor of 1 on the flow grid:
updates only add a positive amount to a cell. -/
theorem flow_ge_one_aux (hf : HeightField) :
    ∀ (l : List Pt) (st : FlowState), (∀ i, 1 ≤ st.flow i) →
      ∀ i, 1 ≤ (l.foldl (flowStep hf) st).flow i := by
  intro l
  induction l with
  | nil => intro st h i; exact h i
  | cons p t ih =>
    intro st h i
    refine ih _ (fun j => ?_) i
    cases hsp : st.processed p.index with
    | true => simp only [flowStep, hsp, if_true]; exact h j
    | false =>
      simp only [flowStep, hsp, Bool.false_eq_true, if_false]
      cases hbn : (bestNeighbor hf p).2 with
      | none => simp only [hbn]; exact h j
      | some t0 =>
        simp only [hbn]
        rcases eq_or_ne j t0 with rfl | hne
        · rw [Function.update_same]
          have h1 := h j
          have h2 := h p.index
          linarith
        · rw [Function.update_noteq hne]
          exact h j

/-- The flow floor, as a reusable fact. -/
theorem flow_floor (hf : HeightField) (i : ℕ) (hi : i < hf.size * hf.size) :
    1 ≤ calculateFlowAccumulation hf i := by
  unfold calculateFlowAccumulation
  by_cases hs : hf.size = 0
  · exact absurd hi (by simp [hs])
  · rw [if_neg hs]
    exact flow_ge_one_aux hf _ _ (fun _ => le_refl 1) i

/-- C3: every cell of the flow accumulation grid is at least 1: each cell is seeded
with one unit of flow and the sweep only ever adds to cells. -/
theorem flowAccumulation_ge_one (hf : HeightField) (i : ℕ)
    (hi : i < hf.size * hf.size) : 1 ≤ calculateFlowAccumulation hf i :=
  flow_floor hf i hi

/-- Witness for C3 on the one-cell heightfield. -/
theorem flowAccumulation_ge_one_witness :
    1 ≤ calculateFlowAccumulation ⟨1, fun _ => 0⟩ 0 :=
  flowAccumulation_ge_one ⟨1, fun _ => 0⟩ 0 (by norm_num)

theorem lexLt_trans : ∀ a b c : Pt, lexLt a b → lexLt b c → lexLt a c := by
  intro a b c hab hbc
  simp only [lexLt] at *
  omega

theorem lexLt_irrefl : ∀ a : Pt, ¬ lexLt a a := by
  intro a h
  simp only [lexLt] at h
  omega

theorem ne_of_lexLt {a b : Pt} (h : lexLt a b) : a ≠ b := by
  intro heq
  rw [heq] at h
  exact lexLt_irrefl b h

/-- The row-major enumeration of points is strictly increasing in (y, x). -/
theorem pointsOf_pairwise_lex (hf : HeightField) : (pointsOf hf).Pairwise lexLt := by
  have h : pointsOf hf =
      ((List.range hf.size).map fun y => (List.range hf.size).map fun x =>
        (⟨x, y, hf.data (idx hf.size y x), idx hf.size y x⟩ : Pt)).flatten := rfl
  rw [h, List.pairwise_flatten]
  constructor
  · intro l hl
    rcases List.mem_map.mp hl with ⟨y, _, rfl⟩
    rw [List.pairwise_map]
    exact (List.pairwise_lt_range _).imp fun hxy => Or.inr ⟨rfl, hxy⟩
  · rw [List.pairwise_map]
    refine (List.pairwise_lt_range _).imp ?_
    intro y y' hyy a ha b hb
    rcases List.mem_map.mp ha with ⟨x, _, rfl⟩
    rcases List.mem_map.mp hb with ⟨x', _, rfl⟩
    exact Or.inl hyy

theorem pointsOf_nodup (hf : HeightField) : (pointsOf hf).Nodup :=
  List.Pairwise.imp (fun h => ne_of_lexLt h) (pointsOf_pairwise_lex hf)

/-- In a transitively, irreflexively ordered list, any two members in relation form
a pair sublist in that order. -/
theorem pair_sublist_of_pairwise {α : Type} {r : α → α → Prop}
    (htrans : ∀ a b c, r a b → r b c → r a c) (hirr : ∀ a, ¬ r a a) :
    ∀ (l : List α), l.Pairwise r → ∀ a b, a ∈ l → b ∈ l → r a b → List.Sublist [a, b] l := by
  intro l
  induction l with
  | nil => intro _ a b ha; cases ha
  | cons h t ih =>
    intro hpw a b ha hb hr
    rcases List.pairwise_cons.mp hpw with ⟨hhead, htail⟩
    rcases List.mem_cons.mp ha with ha0 | hat
    · subst ha0
      rcases List.mem_cons.mp hb with hb0 | hbt
      · subst hb0
        exact absurd hr (hirr _)
      · exact (List.singleton_sublist.mpr hbt).cons₂ a
    · rcases List.mem_cons.mp hb with hb0 | hbt
      · subst hb0
        exact absurd (htrans a b a hr (hhead a hat)) (hirr a)
      · exact (ih htail a b hat hbt hr).cons h

/-- In a duplicate-free list, a pair that is a sublist in both orders is degenerate. -/
theorem sublist_pair_antisym {α : Type} :
    ∀ (l : List α) (a b : α), l.Nodup → List.Sublist [a, b] l → List.Sublist [b, a] l → a = b := by
  intro l
  induction l with
  | nil =>
    intro a b _ h1
    cases h1
  | cons h t ih =>
    intro a b hnd h1 h2
    rcases List.nodup_cons.mp hnd with ⟨hh, ht⟩
    cases h1 with
    | cons _ hs1 =>
      cases h2 with
      | cons _ hs2 => exact ih a b ht hs1 hs2
      | cons₂ hs2 =>
        exact absurd (hs1.subset (by simp)) hh
    | cons₂ hs1 =>
      cases h2 with
      | cons _ hs2 =>
        exact absurd (hs2.subset (by simp)) hh
      | cons₂ hs2 => rfl

theorem heightLe_trans : ∀ a b c : Pt, heightLe a b → heightLe b c → heightLe a c := by
  intro a b c hab hbc
  simp only [heightLe, decide_eq_true_eq] at *
  linarith

theorem heightLe_total : ∀ a b : Pt, heightLe a b || heightLe b a := by
  intro a b
  simp only [heightLe, Bool.or_eq_true, decide_eq_true_eq]
  exact le_total b.height a.height

/-- The visit order of the solver is height descending with ties broken by
row-major (y, x) order: height order comes from sortedness of the merge sort, the
tie rule from its stability over the row-major enumeration. -/
theorem sortPoints_pairwise (hf : HeightField) :
    (sortPoints hf).Pairwise visitsBefore := by
  rw [List.pairwise_iff_forall_sublist]
  intro a b hsub
  have hsorted : (sortPoints hf).Pairwise (fun a b => heightLe a b = true) :=
    List.sorted_mergeSort heightLe_trans heightLe_total (pointsOf hf)
  have hh : b.height ≤ a.height := by
    have := List.pairwise_iff_forall_sublist.mp hsorted hsub
    simpa [heightLe, decide_eq_true_eq] using this
  refine ⟨hh, fun heq => ?_⟩
  by_contra hlex
  push_neg at hlex
  have hba : lexLt b a := by
    rcases lt_or_eq_of_le hlex.1 with h | h
    · exact Or.inl h
    · exact Or.inr ⟨h, hlex.2 h.symm⟩
  have hma : a ∈ pointsOf hf := List.mem_mergeSort.mp (hsub.subset (by simp))
  have hmb : b ∈ pointsOf hf := List.mem_mergeSort.mp (hsub.subset (by simp))
  have hpair : List.Sublist [b, a] (pointsOf hf) :=
    pair_sublist_of_pairwise lexLt_trans lexLt_irrefl _ (pointsOf_pairwise_lex hf)
      b a hmb hma hba
  have hba2 : List.Sublist [b, a] (sortPoints hf) :=
    List.pair_sublist_mergeSort heightLe_trans heightLe_total
      (by simp only [heightLe, decide_eq_true_eq]; exact heq.symm.le) hpair
  have hnd : (sortPoints hf).Nodup :=
    ((List.mergeSort_perm (pointsOf hf) heightLe).symm).nodup (pointsOf_nodup hf)
  have hab : a = b := sublist_pair_antisym _ a b hnd hsub hba2
  rw [hab] at hba
  exact lexLt_irrefl b hba

/-- Characterization of the steepest-neighbor fold: the accumulator never
decreases, dominates the slope of every valid direction seen, and is either
untouched or holds the slope and index of some valid direction, strictly
positive. -/
theorem best_fold_spec (hf : HeightField) (p : Pt) :
    ∀ (l : List (ℤ × ℤ)) (acc : ℝ × Option ℕ), 0 ≤ acc.1 →
      (acc.1 ≤ (l.foldl (stepDir hf p) acc).1) ∧
      (∀ d ∈ l, dirValid hf p d →
        dirSlope hf p d ≤ (l.foldl (stepDir hf p) acc).1) ∧
      ((l.foldl (stepDir hf p) acc) = acc ∨
        ((∃ d ∈ l, dirValid hf p d ∧
            (l.foldl (stepDir hf p) acc).1 = dirSlope hf p d ∧
            (l.foldl (stepDir hf p) acc).2 = some (dirIdx hf p d)) ∧
          0 < (l.foldl (stepDir hf p) acc).1)) := by
  intro l
  induction l with
  | nil =>
    intro acc _
    exact ⟨le_refl _, by simp, Or.inl rfl⟩
  | cons d t ih =>
    intro acc h0
    have hfold : (d :: t).foldl (stepDir hf p) acc =
        t.foldl (stepDir hf p) (stepDir hf p acc d) := rfl
    by_cases hv : dirValid hf p d
    · by_cases himp : acc.1 < dirSlope hf p d
      · have hstep : stepDir hf p acc d = (dirSlope hf p d, some (dirIdx hf p d)) := by
          simp [stepDir, hv, himp]
        have h0' : 0 ≤ (stepDir hf p acc d).1 := by
          rw [hstep]; exact le_of_lt (lt_of_le_of_lt h0 himp)
        obtain ⟨ih1, ih2, ih3⟩ := ih (stepDir hf p acc d) h0'
        rw [hfold]
        refine ⟨?_, ?_, ?_⟩
        · calc acc.1 ≤ (stepDir hf p acc d).1 := by rw [hstep]; exact le_of_lt himp
            _ ≤ _ := ih1
        · intro d0 hd0 hv0
          rcases List.mem_cons.mp hd0 with rfl | hdt
          · calc dirSlope hf p d0 = (stepDir hf p acc d0).1 := by rw [hstep]
              _ ≤ _ := ih1
          · exact ih2 d0 hdt hv0
        · rcases ih3 with heq | ⟨⟨d0, hd0, hv0, h1, h2⟩, hpos⟩
          · refine Or.inr ⟨⟨d, List.mem_cons_self _ _, hv, ?_, ?_⟩, ?_⟩
            · rw [heq, hstep]
            · rw [heq, hstep]
            · rw [heq, hstep]; exact lt_of_le_of_lt h0 himp
          · exact Or.inr ⟨⟨d0, List.mem_cons_of_mem _ hd0, hv0, h1, h2⟩, hpos⟩
      · have hstep : stepDir hf p acc d = acc := by simp [stepDir, hv, himp]
        rw [hfold, hstep]
        obtain ⟨ih1, ih2, ih3⟩ := ih acc h0
        refine ⟨ih1, ?_, ?_⟩
        · intro d0 hd0 hv0
          rcases List.mem_cons.mp hd0 with rfl | hdt
          · exact le_trans (le_of_not_lt himp) ih1
          · exact ih2 d0 hdt hv0
        · rcases ih3 with heq | ⟨⟨d0, hd0, hv0, h1, h2⟩, hpos⟩
          · exact Or.inl heq
          · exact Or.inr ⟨⟨d0, List.mem_cons_of_mem _ hd0, hv0, h1, h2⟩, hpos⟩
    · have hstep : stepDir hf p acc d = acc := by simp [stepDir, hv]
      rw [hfold, hstep]
      obtain ⟨ih1, ih2, ih3⟩ := ih acc h0
      refine ⟨ih1, ?_, ?_⟩
      · intro d0 hd0 hv0
        rcases List.mem_cons.mp hd0 with rfl | hdt
        · exact absurd hv0 hv
        · exact ih2 d0 hdt hv0
      · rcases ih3 with heq | ⟨⟨d0, hd0, hv0, h1, h2⟩, hpos⟩
        · exact Or.inl heq
        · exact Or.inr ⟨⟨d0, List.mem_cons_of_mem _ hd0, hv0, h1, h2⟩, hpos⟩

theorem mem_nbrsOf {hf : HeightField} {p : Pt} {q : ℕ × ℝ} :
    q ∈ nbrsOf hf p ↔
      ∃ d ∈ dirs8, dirValid hf p d ∧ q = (dirIdx hf p d, offDist d) := by
  simp only [nbrsOf, List.mem_filterMap]
  constructor
  · rintro ⟨d, hd, hopt⟩
    by_cases hv : dirValid hf p d
    · rw [if_pos hv] at hopt
      exact ⟨d, hd, hv, (Option.some.injEq _ _ ▸ hopt).symm⟩
    · rw [if_neg hv] at hopt
      cases hopt
  · rintro ⟨d, hd, hv, rfl⟩
    exact ⟨d, hd, by rw [if_pos hv]⟩

/-- C4: the flow solver visits all cells as a permutation of the pixel enumeration,
sorted by height descending with ties broken in lexicographic (y, x) order; the
step distance of each of the eight directions is 1 for rook neighbors and the
square root of 2 for diagonals; the chosen neighbor realizes the maximal, strictly
positive slope (height drop over distance) among all in-bounds neighbors, and the
step adds the current accumulation of the cell to exactly that neighbor, while a
cell with no strictly downhill neighbor propagates nothing. -/
theorem flow_order_and_steepest_selection (hf : HeightField) (p : Pt) :
    ((sortPoints hf).Perm (pointsOf hf) ∧ (sortPoints hf).Pairwise visitsBefore) ∧
    (∀ d ∈ dirs8, offDist d = if d.1 = 0 ∨ d.2 = 0 then 1 else Real.sqrt 2) ∧
    (∀ q ∈ nbrsOf hf p, slopeTo hf p q ≤ (bestNeighbor hf p).1) ∧
    (∀ t, (bestNeighbor hf p).2 = some t →
      ∃ q ∈ nbrsOf hf p, q.1 = t ∧ slopeTo hf p q = (bestNeighbor hf p).1 ∧
        0 < (bestNeighbor hf p).1) ∧
    ((bestNeighbor hf p).2 = none → (bestNeighbor hf p).1 = 0) ∧
    (∀ st : FlowState, st.processed p.index = false →
      (∀ t, (bestNeighbor hf p).2 = some t →
        (flowStep hf st p).flow =
          Function.update st.flow t (st.flow t + st.flow p.index)) ∧
      ((bestNeighbor hf p).2 = none → (flowStep hf st p).flow = st.flow)) := by
  obtain ⟨hb1, hb2, hb3⟩ := best_fold_spec hf p dirs8 (0, none) le_rfl
  refine ⟨⟨List.mergeSort_perm _ _, sortPoints_pairwise hf⟩, ?_, ?_, ?_, ?_, ?_⟩
  · intro d hd
    simp only [dirs8, List.mem_cons, List.not_mem_nil, or_false] at hd
    rcases hd with rfl | rfl | rfl | rfl | rfl | rfl | rfl | rfl <;>
      norm_num [offDist, Real.sqrt_one]
  · intro q hq
    rcases mem_nbrsOf.mp hq with ⟨d, hd, hv, rfl⟩
    exact hb2 d hd hv
  · intro t ht
    rcases hb3 with heq | ⟨⟨d, hd, hv, h1, h2⟩, hpos⟩
    · rw [show bestNeighbor hf p = dirs8.foldl (stepDir hf p) (0, none) from rfl,
        heq] at ht
      cases ht
    · have ht2 : dirIdx hf p d = t := by
        have := h2.symm.trans ht
        exact Option.some.injEq _ _ ▸ this
      exact ⟨(dirIdx hf p d, offDist d), mem_nbrsOf.mpr ⟨d, hd, hv, rfl⟩, ht2,
        h1.symm, hpos⟩
  · intro hnone
    rcases hb3 with heq | ⟨⟨d, hd, hv, h1, h2⟩, hpos⟩
    · rw [show bestNeighbor hf p = dirs8.foldl (stepDir hf p) (0, none) from rfl, heq]
    · rw [show (bestNeighbor hf p).2 = (dirs8.foldl (stepDir hf p) (0, none)).2
          from rfl] at hnone
      rw [hnone] at h2
      cases h2
  · intro st hst
    constructor
    · intro t ht
      simp only [flowStep, hst, Bool.false_eq_true, if_false, ht]
    · intro hnone
      simp only [flowStep, hst, Bool.false_eq_true, if_false, hnone]

/-- Witness for C4 on the one-cell heightfield, where every neighbor is out of
bounds, so the scan selects nothing and the step leaves the flow unchanged. -/
theorem flow_order_and_steepest_selection_witness :
    (sortPoints ⟨1, fun _ => 0⟩).Perm (pointsOf ⟨1, fun _ => 0⟩) ∧
      (flowStep ⟨1, fun _ => 0⟩ ⟨fun _ => 1, fun _ => false⟩ ⟨0, 0, 0, 0⟩).flow =
        (⟨fun _ => 1, fun _ => false⟩ : FlowState).flow := by
  have hnone : (bestNeighbor ⟨1, fun _ => 0⟩ ⟨0, 0, 0, 0⟩).2 = none := by
    norm_num [bestNeighbor, dirs8, stepDir, dirValid]
  exact ⟨(flow_order_and_steepest_selection ⟨1, fun _ => 0⟩ ⟨0, 0, 0, 0⟩).1.1,
    ((flow_order_and_steepest_selection ⟨1, fun _ => 0⟩ ⟨0, 0, 0, 0⟩).2.2.2.2.2
      ⟨fun _ => 1, fun _ => false⟩ rfl).2 hnone⟩

/-! ### Erosion properties -/

/-- Fold invariance: a property preserved by every step holds at the end. -/
theorem foldl_preserve {α β : Type} (P : β → Prop) (f : β → α → β) :
    ∀ (l : List α) (b : β), P b → (∀ b a, a ∈ l → P b → P (f b a)) →
      P (l.foldl f b) := by
  intro l
  induction l with
  | nil => intro b hb _; exact hb
  | cons a t ih =>
    intro b hb hstep
    exact ih _ (hstep b a (List.mem_cons_self _ _) hb)
      fun b0 a0 ha0 => hstep b0 a0 (List.mem_cons_of_mem _ ha0)

theorem mem_interiorPairs {size : ℕ} {p : ℕ × ℕ} :
    p ∈ interiorPairs size ↔
      1 ≤ p.1 ∧ p.1 < size - 1 ∧ 1 ≤ p.2 ∧ p.2 < size - 1 := by
  cases p with
  | mk y x =>
    simp only [interiorPairs, List.mem_flatMap, List.mem_map, List.mem_range'_1,
      Prod.mk.injEq]
    constructor
    · rintro ⟨y0, hy0, x0, hx0, rfl, rfl⟩
      omega
    · rintro ⟨h1, h2, h3, h4⟩
      exact ⟨y, by omega, x, by omega, rfl, rfl⟩

theorem nbrOffsets_bounds {d : ℤ × ℤ} (hd : d ∈ nbrOffsets) :
    -1 ≤ d.1 ∧ d.1 ≤ 1 ∧ -1 ≤ d.2 ∧ d.2 ≤ 1 := by
  simp only [nbrOffsets, List.mem_cons, List.not_mem_nil, or_false] at hd
  rcases hd with rfl | rfl | rfl | rfl | rfl | rfl | rfl | rfl <;> norm_num

theorem nbrIdx_lt {size y x : ℕ} {d : ℤ × ℤ} (hd : d ∈ nbrOffsets)
    (hy1 : 1 ≤ y) (hy2 : y < size - 1) (hx1 : 1 ≤ x) (hx2 : x < size - 1) :
    nbrIdx size y x d < size * size := by
  obtain ⟨h1, h2, h3, h4⟩ := nbrOffsets_bounds hd
  have hy0 : ((y : ℤ) + d.2).toNat < size := by omega
  have hx0 : ((x : ℤ) + d.1).toNat < size := by omega
  exact idx_lt hy0 hx0

/-- Sum of a grid over the first n cells after a single in-range update. -/
theorem sum_update_lt (n : ℕ) (g : Grid) {j : ℕ} (hj : j < n) (v : ℝ) :
    ∑ i in Finset.range n, Function.update g j v i =
      (∑ i in Finset.range n, g i) - g j + v := by
  have hm : j ∈ Finset.range n := Finset.mem_range.mpr hj
  rw [Finset.sum_update_of_mem hm, Finset.sdiff_singleton_eq_erase]
  have h2 : ∑ i in (Finset.range n).erase j, g i + g j = ∑ i in Finset.range n, g i :=
    Finset.sum_erase_add _ _ hm
  linarith

/-- A transfer of amount a between two in-range cells leaves the total sum fixed. -/
theorem sum_transfer {n : ℕ} (g : Grid) {i j : ℕ} (hi : i < n) (hj : j < n) (a : ℝ) :
    ∑ k in Finset.range n,
        Function.update (Function.update g i (g i - a)) j
          (Function.update g i (g i - a) j + a) k =
      ∑ k in Finset.range n, g k := by
  rw [sum_update_lt n _ hj, sum_update_lt n _ hi]
  ring

/-- C10: thermal erosion conserves total terrain mass: every iteration moves each
transferred amount from one in-range cell to another inside the same write buffer,
so the sum of all height cells is unchanged for every heightfield, parameter set
and iteration count. -/
theorem thermal_erosion_conserves_mass (size : ℕ) (data : Grid)
    (params : ErosionParams) (iterations : ℕ) :
    ∑ i in Finset.range (size * size),
        (applyThermalErosion size data params iterations).1 i =
      ∑ i in Finset.range (size * size), data i := by
  unfold applyThermalErosion
  refine foldl_preserve
    (fun st : Grid × Grid => ∑ i in Finset.range (size * size), st.1 i =
      ∑ i in Finset.range (size * size), data i) _ _ _ rfl ?_
  intro st _ _ hst
  unfold thermalIter
  refine foldl_preserve
    (fun st2 : Grid × Grid => ∑ i in Finset.range (size * size), st2.1 i =
      ∑ i in Finset.range (size * size), data i) _ _ _ hst ?_
  intro st2 yx hyx hst2
  obtain ⟨hy1, hy2, hx1, hx2⟩ := mem_interiorPairs.mp hyx
  refine foldl_preserve
    (fun st3 : Grid × Grid => ∑ i in Finset.range (size * size), st3.1 i =
      ∑ i in Finset.range (size * size), data i) _ _ _ hst2 ?_
  intro st3 d hd hst3
  have hi : idx size yx.1 yx.2 < size * size :=
    idx_lt (by omega : yx.1 < size) (by omega : yx.2 < size)
  have hj : nbrIdx size yx.1 yx.2 d < size * size := nbrIdx_lt hd hy1 hy2 hx1 hx2
  by_cases hc : (0.8 : ℝ) < st.1 (idx size yx.1 yx.2) - st.1 (nbrIdx size yx.1 yx.2 d)
  · simp only [if_pos hc]
    exact (sum_transfer st3.1 hi hj _).trans hst3
  · simp only [if_neg hc]
    exact hst3

theorem wind_zero_iter (size : ℕ) (data : Grid) (params : ErosionParams) :
    applyWindErosion size data params 0 = (data, zeroGrid) := rfl

theorem thermal_zero_iter (size : ℕ) (data : Grid) (params : ErosionParams) :
    applyThermalErosion size data params 0 = (data, zeroGrid) := rfl

theorem hydraulic_zero_iter (size : ℕ) (data riverMask flowAccumulation : Grid)
    (params : ErosionParams) :
    applyHydraulicErosion size data riverMask flowAccumulation params 0 =
      (data, zeroGrid, zeroGrid) := rfl

/-- C5: the iteration budgets are the ceilings of timeYears over 100, 50 and 25
respectively; erosionYears 5000 gives a thermal budget of 100; timeYears 0 gives
zero iterations for all three passes and the whole geological pipeline leaves the
heightfield unchanged. -/
theorem erosion_iteration_budget :
    (∀ t : ℝ, windIterations t = ⌈t / 100⌉ ∧ thermalIterations t = ⌈t / 50⌉ ∧
      hydraulicIterations t = ⌈t / 25⌉) ∧
    thermalIterations 5000 = 100 ∧
    (windIterations 0 = 0 ∧ thermalIterations 0 = 0 ∧ hydraulicIterations 0 = 0) ∧
    (∀ (hf : HeightField) (params : ErosionParams), params.timeYears = 0 →
      (applyGeologicalErosion hf params).heightField.data = hf.data) := by
  have hw0 : windIterations 0 = 0 := by
    simp [windIterations]
  have ht0 : thermalIterations 0 = 0 := by
    simp [thermalIterations]
  have hh0 : hydraulicIterations 0 = 0 := by
    simp [hydraulicIterations]
  refine ⟨fun t => ⟨rfl, rfl, rfl⟩, ?_, ⟨hw0, ht0, hh0⟩, ?_⟩
  · rw [thermalIterations, show (5000 : ℝ) / 50 = ((100 : ℤ) : ℝ) by norm_num,
      Int.ceil_intCast]
  · intro hf params ht
    unfold applyGeologicalErosion
    rw [ht, hw0, ht0, hh0]
    simp only [Int.toNat_zero, wind_zero_iter, thermal_zero_iter, hydraulic_zero_iter]
    by_cases h1 : (0 : ℝ) < params.windStrength <;>
      by_cases h2 : (0 : ℝ) < params.temperatureCycles <;>
        by_cases h3 : (0 : ℝ) < params.rainIntensity <;>
          simp [h1, h2, h3]

/-- Witness for C5 at a concrete input: zero years leave the all-zero 3 by 3
heightfield untouched. -/
theorem erosion_iteration_budget_witness :
    (applyGeologicalErosion ⟨3, fun _ => 0⟩ ⟨0, 0, 1, 1, 1⟩).heightField.data =
      (⟨3, fun _ => 0⟩ : HeightField).data :=
  erosion_iteration_budget.2.2.2 ⟨3, fun _ => 0⟩ ⟨0, 0, 1, 1, 1⟩ rfl

/-- C2 evaluation, step 1: on the all-zero 3 by 3 field with windStrength 1, one
wind iteration leaves the single interior cell at -0.001: the exposure floor 0.1
drives an unclamped subtraction. -/
theorem wind_negative_cell :
    (applyWindErosion 3 (fun _ => 0) ⟨100, 0, 1, 0, 0⟩ 1).1 (idx 3 1 1) =
      -(1 / 1000) := by
  have hip : interiorPairs 3 = [(1, 1)] := by decide
  have hr1 : List.range 1 = [0] := by decide
  rw [applyWindErosion, hr1, hip]
  rw [List.foldl_cons, List.foldl_nil, List.foldl_cons, List.foldl_nil]
  norm_num [nbrOffsets, List.foldl_cons, List.foldl_nil, idx, Function.update_same]

/-- C2: the wind pass has no clamp at 0. Starting from the all-zero 3 by 3
heightfield with ErosionParams timeYears 100, seaLevel 0, windStrength 1,
rainIntensity 0, temperatureCycles 0, the geological pipeline leaves the center
cell strictly negative, at -0.001, contradicting the claimed non-negativity. -/
theorem wind_erosion_drives_negative :
    (applyGeologicalErosion ⟨3, fun _ => 0⟩ ⟨100, 0, 1, 0, 0⟩).heightField.data
        (idx 3 1 1) < 0 := by
  have hw : (windIterations (100 : ℝ)).toNat = 1 := by
    rw [windIterations, show (100 : ℝ) / 100 = ((1 : ℤ) : ℝ) by norm_num,
      Int.ceil_intCast]
    rfl
  have hmain : (applyGeologicalErosion ⟨3, fun _ => 0⟩ ⟨100, 0, 1, 0, 0⟩).heightField.data =
      (applyWindErosion 3 (fun _ => 0) ⟨100, 0, 1, 0, 0⟩ 1).1 := by
    unfold applyGeologicalErosion
    rw [hw]
    norm_num
  rw [hmain, wind_negative_cell]
  norm_num

/-! ### Hydrology mask bounds -/

theorem sqrt_two_le : Real.sqrt 2 ≤ 1.5 := by
  have h := Real.sqrt_le_sqrt (by norm_num : (2 : ℝ) ≤ 1.5 ^ 2)
  rwa [Real.sqrt_sq (by norm_num : (0 : ℝ) ≤ 1.5)] at h

theorem win9_bounds {d : ℤ × ℤ} (hd : d ∈ win9) :
    -1 ≤ d.1 ∧ d.1 ≤ 1 ∧ -1 ≤ d.2 ∧ d.2 ≤ 1 := by
  simp only [win9, List.mem_cons, List.not_mem_nil, or_false] at hd
  rcases hd with rfl | rfl | rfl | rfl | rfl | rfl | rfl | rfl | rfl <;> norm_num

theorem offDist_nonneg (d : ℤ × ℤ) : 0 ≤ offDist d := Real.sqrt_nonneg _

theorem win9_offDist_le {d : ℤ × ℤ} (hd : d ∈ win9) : offDist d ≤ 1.5 := by
  simp only [win9, List.mem_cons, List.not_mem_nil, or_false] at hd
  have h2 := sqrt_two_le
  rcases hd with rfl | rfl | rfl | rfl | rfl | rfl | rfl | rfl | rfl <;>
    · norm_num [offDist, Real.sqrt_one, Real.sqrt_zero] at h2 ⊢ <;> linarith

theorem nbrIdx_lt_win9 {size y x : ℕ} {d : ℤ × ℤ} (hd : d ∈ win9)
    (hy1 : 1 ≤ y) (hy2 : y < size - 1) (hx1 : 1 ≤ x) (hx2 : x < size - 1) :
    nbrIdx size y x d < size * size := by
  obtain ⟨h1, h2, h3, h4⟩ := win9_bounds hd
  have hy0 : ((y : ℤ) + d.2).toNat < size := by omega
  have hx0 : ((x : ℤ) + d.1).toNat < size := by omega
  exact idx_lt hy0 hx0

theorem maxFlowOf_nonneg (n : ℕ) (flow : Grid) : 0 ≤ maxFlowOf n flow := by
  unfold maxFlowOf
  refine foldl_preserve (fun m : ℝ => 0 ≤ m) _ _ _ le_rfl ?_
  intro m j _ hm
  exact le_trans hm (le_max_left _ _)

theorem foldl_max_ge_acc (flow : Grid) :
    ∀ (l : List ℕ) (acc : ℝ), acc ≤ l.foldl (fun m i => max m (flow i)) acc := by
  intro l
  induction l with
  | nil => intro acc; exact le_rfl
  | cons j t ih =>
    intro acc
    exact le_trans (le_max_left _ _) (ih (max acc (flow j)))

theorem le_foldl_max (flow : Grid) :
    ∀ (l : List ℕ) (acc : ℝ) (j : ℕ), j ∈ l →
      flow j ≤ l.foldl (fun m i => max m (flow i)) acc := by
  intro l
  induction l with
  | nil => intro acc j hj; cases hj
  | cons k t ih =>
    intro acc j hj
    rcases List.mem_cons.mp hj with rfl | hjt
    · exact le_trans (le_max_right _ _) (foldl_max_ge_acc flow t _)
    · exact ih _ j hjt

theorem le_maxFlowOf {n : ℕ} (flow : Grid) {j : ℕ} (hj : j < n) :
    flow j ≤ maxFlowOf n flow :=
  le_foldl_max flow (List.range n) 0 j (List.mem_range.mpr hj)

theorem riverBaseCell_bounds {t maxFlow v : ℝ} (h1 : v / maxFlow ≤ 1) :
    0 ≤ riverBaseCell t maxFlow v ∧ riverBaseCell t maxFlow v ≤ 1 := by
  simp only [riverBaseCell]
  by_cases hb1 : t < v / maxFlow
  · rw [if_pos hb1]
    have ht1 : t < 1 := lt_of_lt_of_le hb1 h1
    constructor
    · exact le_min (by norm_num) (div_nonneg (by linarith) (by linarith))
    · exact min_le_left _ _
  · rw [if_neg hb1]
    by_cases hb2 : t * 0.3 < v / maxFlow
    · rw [if_pos hb2]
      have hnf : v / maxFlow ≤ t := not_lt.mp hb1
      have ht0 : 0 < t := by nlinarith
      have hq : (v / maxFlow - t * 0.3) / (t * 0.7) ≤ 1 :=
        (div_le_one (by linarith)).mpr (by linarith)
      have hq0 : 0 ≤ (v / maxFlow - t * 0.3) / (t * 0.7) :=
        div_nonneg (by linarith) (by linarith)
      constructor
      · nlinarith
      · nlinarith
    · rw [if_neg hb2]
      exact ⟨le_rfl, zero_le_one⟩

theorem riverBase_bounds {n : ℕ} {flow : Grid} {t maxFlow : ℝ}
    (hmax : ∀ j, j < n → flow j ≤ maxFlow) (hmf : 0 < maxFlow) (j : ℕ) :
    0 ≤ riverBase n flow t maxFlow j ∧ riverBase n flow t maxFlow j ≤ 1 := by
  unfold riverBase tabulate
  by_cases hj : j < n
  · rw [if_pos hj]
    exact riverBaseCell_bounds ((div_le_one hmf).mpr (hmax j hj))
  · rw [if_neg hj]
    exact ⟨le_rfl, zero_le_one⟩

theorem dilate_bounds {size : ℕ} {base : Grid}
    (hb : ∀ j, 0 ≤ base j ∧ base j ≤ 1) (j : ℕ) :
    0 ≤ dilateRivers size base j ∧ dilateRivers size base j ≤ 1 := by
  unfold dilateRivers
  refine foldl_preserve (fun g : Grid => ∀ j, 0 ≤ g j ∧ g j ≤ 1) _ _ _ hb ?_ j
  intro g yx _ hg
  by_cases hc : (0.5 : ℝ) < base (idx size yx.1 yx.2)
  · rw [if_pos hc]
    refine foldl_preserve (fun g2 : Grid => ∀ j, 0 ≤ g2 j ∧ g2 j ≤ 1) _ _ _ hg ?_
    intro g2 d hd hg2 k
    by_cases hcd : offDist d ≤ 1.5
    · rw [if_pos hcd]
      rcases eq_or_ne k (nbrIdx size yx.1 yx.2 d) with rfl | hne
      · rw [Function.update_same]
        have hbase := hb (idx size yx.1 yx.2)
        have hfac0 : 0 ≤ 1 - offDist d / 1.5 := by
          have := (div_le_one (by norm_num : (0 : ℝ) < 1.5)).mpr hcd
          linarith
        have hfac1 : 1 - offDist d / 1.5 ≤ 1 := by
          have := div_nonneg (offDist_nonneg d) (by norm_num : (0 : ℝ) ≤ 1.5)
          linarith
        constructor
        · exact le_trans (hg2 (nbrIdx size yx.1 yx.2 d)).1 (le_max_left _ _)
        · refine max_le (hg2 (nbrIdx size yx.1 yx.2 d)).2 ?_
          nlinarith [hbase.1, hbase.2]
      · rw [Function.update_noteq hne]
        exact hg2 k
    · rw [if_neg hcd]
      exact hg2 k
  · rw [if_neg hc]
    exact hg

theorem dilate_outside {size : ℕ} (base : Grid) {i : ℕ} (hi : size * size ≤ i) :
    dilateRivers size base i = base i := by
  unfold dilateRivers
  refine foldl_preserve (fun g : Grid => g i = base i) _ _ _ rfl ?_
  intro g yx hyx hg
  obtain ⟨hy1, hy2, hx1, hx2⟩ := mem_interiorPairs.mp hyx
  by_cases hc : (0.5 : ℝ) < base (idx size yx.1 yx.2)
  · rw [if_pos hc]
    refine foldl_preserve (fun g2 : Grid => g2 i = base i) _ _ _ hg ?_
    intro g2 d hd hg2
    by_cases hcd : offDist d ≤ 1.5
    · rw [if_pos hcd]
      rw [Function.update_noteq]
      · exact hg2
      · exact Ne.symm (Nat.ne_of_lt (lt_of_lt_of_le
          (nbrIdx_lt_win9 hd hy1 hy2 hx1 hx2) hi))
    · rw [if_neg hcd]
      exact hg2
  · rw [if_neg hc]
    exact hg

theorem riverMask_bounds (hf : HeightField) (flowAcc : Grid) (t : ℝ)
    (hfa : ∀ j, j < hf.size * hf.size → 1 ≤ flowAcc j) (j : ℕ) :
    0 ≤ generateRiverMask hf flowAcc t j ∧ generateRiverMask hf flowAcc t j ≤ 1 := by
  unfold generateRiverMask
  by_cases hmf : maxFlowOf (hf.size * hf.size) flowAcc = 0
  · rw [if_pos hmf]
    exact ⟨le_rfl, zero_le_one⟩
  · rw [if_neg hmf]
    have hpos : 0 < maxFlowOf (hf.size * hf.size) flowAcc :=
      lt_of_le_of_ne (maxFlowOf_nonneg _ _) (Ne.symm hmf)
    exact dilate_bounds (riverBase_bounds (fun k hk => le_maxFlowOf flowAcc hk) hpos) j

theorem riverMask_outside (hf : HeightField) (flowAcc : Grid) (t : ℝ) {i : ℕ}
    (hi : hf.size * hf.size ≤ i) : generateRiverMask hf flowAcc t i = 0 := by
  unfold generateRiverMask
  by_cases hmf : maxFlowOf (hf.size * hf.size) flowAcc = 0
  · rw [if_pos hmf]
    rfl
  · rw [if_neg hmf, dilate_outside _ hi]
    unfold riverBase tabulate
    rw [if_neg (by omega)]

theorem beachCell_bounds (size : ℕ) (waterMask : Grid) (W : ℤ) (i : ℕ) :
    0 ≤ beachCell size waterMask W i ∧ beachCell size waterMask W i ≤ 1 := by
  unfold beachCell
  by_cases hw : (0 : ℝ) < waterMask i
  · rw [if_pos hw]
    exact ⟨zero_le_one, le_rfl⟩
  · rw [if_neg hw]
    cases hfind : (beachOffsets W).find? (fun d =>
        let nx : ℤ := ((i % size : ℕ) : ℤ) + d.1
        let ny : ℤ := ((i / size : ℕ) : ℤ) + d.2
        decide (0 ≤ nx ∧ nx < (size : ℤ) ∧ 0 ≤ ny ∧ ny < (size : ℤ) ∧
          0 < waterMask (idx size ny.toNat nx.toNat) ∧
          offDist d ≤ (W : ℝ))) with
    | none =>
      exact ⟨le_rfl, zero_le_one⟩
    | some d =>
      have hp := List.find?_some hfind
      simp only [decide_eq_true_eq] at hp
      have hd0 : 0 ≤ offDist d := offDist_nonneg d
      have hW : (0 : ℝ) ≤ (W : ℝ) := le_trans hd0 hp.2.2.2.2.2
      have hq : 0 ≤ offDist d / (W : ℝ) := div_nonneg hd0 hW
      exact ⟨le_max_left _ _, max_le (by norm_num) (by linarith)⟩

theorem beachMask_bounds (hf : HeightField) (seaLevel beachWidth : ℝ) (i : ℕ) :
    0 ≤ generateBeachMask hf seaLevel beachWidth i ∧
      generateBeachMask hf seaLevel beachWidth i ≤ 1 := by
  show 0 ≤ tabulate _ _ i ∧ tabulate _ _ i ≤ 1
  unfold tabulate
  by_cases hi : i < hf.size * hf.size
  · rw [if_pos hi]
    exact beachCell_bounds _ _ _ i
  · rw [if_neg hi]
    exact ⟨le_rfl, zero_le_one⟩

/-- The final water mask of applyWaterSystem, written out. -/
theorem applyWaterSystem_waterMask (hf : HeightField) (params : WaterSystemParams) :
    (applyWaterSystem hf params).1.waterMask =
      tabulate (hf.size * hf.size) (fun j =>
        max
          (if applyCoastalErosion (hf.size * hf.size)
              (carveRivers hf.size hf.data
                (generateRiverMask hf (calculateFlowAccumulation hf)
                  params.riverThreshold)
                params.riverDepth params.riverWidth)
              (generateBeachMask hf params.seaLevel params.beachWidth)
              params.coastalErosion j ≤ params.seaLevel then 1 else 0)
          (generateRiverMask hf (calculateFlowAccumulation hf)
            params.riverThreshold j)) :=
  rfl

/-- C6: every element of the waterMask, riverMask and beachMask grids produced by
applyWaterSystem lies in the unit interval, for every input heightfield and
parameter set. -/
theorem water_masks_in_unit_interval (hf : HeightField) (params : WaterSystemParams)
    (i : ℕ) (hi : i < hf.size * hf.size) :
    (0 ≤ (applyWaterSystem hf params).1.riverMask i ∧
      (applyWaterSystem hf params).1.riverMask i ≤ 1) ∧
    (0 ≤ (applyWaterSystem hf params).1.beachMask i ∧
      (applyWaterSystem hf params).1.beachMask i ≤ 1) ∧
    (0 ≤ (applyWaterSystem hf params).1.waterMask i ∧
      (applyWaterSystem hf params).1.waterMask i ≤ 1) := by
  have hriver : ∀ j, 0 ≤ generateRiverMask hf (calculateFlowAccumulation hf)
      params.riverThreshold j ∧
      generateRiverMask hf (calculateFlowAccumulation hf) params.riverThreshold j ≤ 1 :=
    fun j => riverMask_bounds hf _ _ (fun k hk => flow_floor hf k hk) j
  refine ⟨hriver i, beachMask_bounds hf _ _ i, ?_⟩
  rw [applyWaterSystem_waterMask]
  unfold tabulate
  rw [if_pos hi]
  constructor
  · exact le_trans (hriver i).1 (le_max_right _ _)
  · refine max_le ?_ (hriver i).2
    split <;> norm_num

/-- Witness for C6 on the one-cell heightfield with all parameters zero. -/
theorem water_masks_in_unit_interval_witness :
    0 ≤ (applyWaterSystem ⟨1, fun _ => 0⟩ ⟨0, 0, 0, 0, 0, 0⟩).1.waterMask 0 ∧
      (applyWaterSystem ⟨1, fun _ => 0⟩ ⟨0, 0, 0, 0, 0, 0⟩).1.waterMask 0 ≤ 1 :=
  (water_masks_in_unit_interval ⟨1, fun _ => 0⟩ ⟨0, 0, 0, 0, 0, 0⟩ 0 (by norm_num)).2.2

/-- C7: river cells are water cells: the final water mask is the pointwise maximum
of the below-sea-level indicator and the river mask, so a positive river mask
value forces a positive water mask value. -/
theorem river_implies_water (hf : HeightField) (params : WaterSystemParams) (i : ℕ)
    (h : 0 < (applyWaterSystem hf params).1.riverMask i) :
    0 < (applyWaterSystem hf params).1.waterMask i := by
  by_cases hi : i < hf.size * hf.size
  · rw [applyWaterSystem_waterMask]
    unfold tabulate
    rw [if_pos hi]
    exact lt_of_lt_of_le h (le_max_right _ _)
  · exfalso
    have hz : (applyWaterSystem hf params).1.riverMask i = 0 := by
      show generateRiverMask hf (calculateFlowAccumulation hf) params.riverThreshold i = 0
      exact riverMask_outside hf _ _ (not_lt.mp hi)
    rw [hz] at h
    exact lt_irrefl 0 h

/-- On the one-cell heightfield every neighbor is out of bounds, so the scan
selects nothing. -/
theorem bestNeighbor_unit :
    (bestNeighbor ⟨1, fun _ => 0⟩ ⟨0, 0, 0, 0⟩).2 = none := by
  norm_num [bestNeighbor, dirs8, stepDir, dirValid]

/-- Flow accumulation on the one-cell heightfield is the constant 1 grid. -/
theorem flow_unit : calculateFlowAccumulation ⟨1, fun _ => 0⟩ = fun _ => 1 := by
  unfold calculateFlowAccumulation
  rw [if_neg (by norm_num : ¬(HeightField.mk 1 fun _ => (0 : ℝ)).size = 0)]
  have hpts : pointsOf ⟨1, fun _ => 0⟩ = [⟨0, 0, 0, 0⟩] := by
    simp [pointsOf, List.range_succ, idx]
  have hsort : sortPoints ⟨1, fun _ => 0⟩ = [⟨0, 0, 0, 0⟩] := by
    unfold sortPoints
    rw [hpts, List.mergeSort_singleton]
  rw [hsort, List.foldl_cons, List.foldl_nil]
  simp only [flowStep, bestNeighbor_unit, Bool.false_eq_true, if_false]

/-- The river mask of the one-cell heightfield at threshold 0 is 1 at its cell. -/
theorem river_unit :
    (applyWaterSystem ⟨1, fun _ => 0⟩ ⟨0, 0, 0, 0, 0, 0⟩).1.riverMask 0 = 1 := by
  show generateRiverMask ⟨1, fun _ => 0⟩ (calculateFlowAccumulation ⟨1, fun _ => 0⟩) 0 0 = 1
  rw [flow_unit]
  unfold generateRiverMask
  have hmax : maxFlowOf ((1 : ℕ) * 1) (fun _ => (1 : ℝ)) = 1 := by
    rw [show ((1 : ℕ) * 1) = 1 from rfl]
    unfold maxFlowOf
    rw [show List.range 1 = [0] from by decide, List.foldl_cons, List.foldl_nil]
    norm_num
  rw [show (HeightField.mk 1 fun _ => (0 : ℝ)).size = 1 from rfl]
  rw [hmax, if_neg one_ne_zero]
  have hdil : ∀ b : Grid, dilateRivers 1 b = b := by
    intro b
    unfold dilateRivers
    rw [show interiorPairs 1 = [] from by decide]
    rfl
  rw [hdil]
  unfold riverBase tabulate riverBaseCell
  norm_num

/-- Witness for C7: on the one-cell heightfield with threshold 0 the river mask is
1 at the cell, and the theorem forces the water mask positive there. -/
theorem river_implies_water_witness :
    0 < (applyWaterSystem ⟨1, fun _ => 0⟩ ⟨0, 0, 0, 0, 0, 0⟩).1.waterMask 0 :=
  river_implies_water ⟨1, fun _ => 0⟩ ⟨0, 0, 0, 0, 0, 0⟩ 0
    (by rw [river_unit]; norm_num)

end Genesis
